import Mathlib

/-!
Verification of the Claidex risk-scoring engine
(`etl/compute/risk_scores.py` and `etl/compute/claidex_modal.py`).

Shallow embedding conventions:
  * Python floats are modelled as elements of a `LinearOrderedField`
    (instantiated at `ℚ` where the source is purely rational arithmetic, so
    that concrete runs can be evaluated by `decide`, and at `ℝ` for the
    pipeline code that applies `math.log` / `math.exp`).
  * Polars DataFrames are lists of records; `group_by` is modelled by
    first-appearance key extraction plus filtering; joins are association-list
    lookups; `fill_null(0)` is `Option.getD 0`.
  * `numpy.round` / Python `round` use round-half-to-even; this is
    `roundHalfEven` below.
  * A numpy reduction over an empty array raises `ValueError`; functions that
    can hit this return `Option` and model the raise as `none`.
  * The Neo4j query boundary is an `Except` parameter: `.ok` carries the
    per-provider aggregate rows the batched UNWIND query would return,
    `.error` models any driver/query failure (the `except` branch).

Scope note: columns that feed only human-readable flags or diagnostics and
are never read by the claims (`m1_pct_rank` / `billing_outlier_percentile`,
`peer_taxonomy`, `peer_state`, `peer_count`, `data_window_years`,
`top_program`, `flags`, the rounded `payment_trajectory_zscore` output
column) are not carried through the row types; every field that reaches
`r_raw`, the calibrated score, the label, `ownership_chain_risk` or
`chain_excluded_count` is modelled.
-/

/-! ### Generic numeric helpers shared by the source file -/

/-- Model of `np.clip(x, lo, hi)`. -/
def clip {α : Type} [LinearOrder α] (x lo hi : α) : α :=
  min (max x lo) hi

/-- Round-half-to-even to an integer, the rounding used by `numpy.round` and
Python's builtin `round`. -/
def roundHalfEven {α : Type} [LinearOrderedField α] [FloorRing α] (x : α) : ℤ :=
  if x - (⌊x⌋ : α) < 1/2 then ⌊x⌋
  else if 1/2 < x - (⌊x⌋ : α) then ⌊x⌋ + 1
  else if Even ⌊x⌋ then ⌊x⌋ else ⌊x⌋ + 1

/-- Model of `round(x, 2)` / `.round(2)`: round to two decimal places. -/
def round2 {α : Type} [LinearOrderedField α] [FloorRing α] (x : α) : α :=
  ((roundHalfEven (x * 100) : ℤ) : α) / 100

/-- Model of `round(x, 4)` (used for `payment_trajectory_zscore`). -/
def round4 {α : Type} [LinearOrderedField α] [FloorRing α] (x : α) : α :=
  ((roundHalfEven (x * 10000) : ℤ) : α) / 10000

/-- Model of `np.median`: sort, take the middle element (odd length) or the
mean of the two middle elements (even length). Only ever applied to non-empty
lists in the source. -/
def npMedian {α : Type} [LinearOrderedField α] (l : List α) : α :=
  let s := List.insertionSort (· ≤ ·) l
  if l.length % 2 = 1 then s.getD (l.length / 2) 0
  else (s.getD (l.length / 2 - 1) 0 + s.getD (l.length / 2) 0) / 2

/-- Propositional list filter (wrapper around `List.filter` so that filters
over real-valued conditions can be written with their natural `Prop`). -/
def filterP {β : Type} (p : β → Prop) [DecidablePred p] (l : List β) : List β :=
  l.filter (fun b => decide (p b))

/-- Fuel-indexed auxiliary for `firstKeys` (structural recursion, so that
concrete runs reduce in the kernel; the fuel is always sufficient because a
filtered list is no longer than the original). -/
def firstKeysAux {κ : Type} [DecidableEq κ] : ℕ → List κ → List κ
  | _, [] => []
  | 0, _ :: _ => []
  | fuel + 1, k :: l => k :: firstKeysAux fuel (l.filter (fun x => decide (x ≠ k)))

/-- Distinct keys of a list in order of first appearance (the deterministic
order we fix for `group_by`; the claims proved below do not depend on the
group order polars actually produces). -/
def firstKeys {κ : Type} [DecidableEq κ] (l : List κ) : List κ :=
  firstKeysAux l.length l

/-- Maximum of a list, meaningful on non-empty lists (model of `.max()`
reductions that the source only applies to non-empty data). -/
def listMax {α : Type} [LinearOrder α] [Zero α] (l : List α) : α :=
  l.foldr max (l.headD 0)

/-! ### Global percentile calibration (`compute_composite` lines 800-810 and
the byte-identical block in `merge_results` lines 506-515)

```python
if n > 1:
    order = np.argsort(r_raw_arr)
    rank_arr = np.empty(n, dtype=float)
    rank_arr[order] = np.arange(n) / (n - 1)
    calibrated = (rank_arr * 100.0).round(2)
else:
    calibrated = (r_raw_arr / max(r_raw_arr.max(), 1) * 100.0).round(2)
```

`np.argsort` returns some permutation sorting the array; its tie order is
unspecified (introsort), so we fix the permutation that breaks ties by
original position, which agrees with numpy on every concrete input used
below. `r_raw_arr.max()` on the empty array raises `ValueError`, hence the
`Option`. -/

/-- Total order on positions of `xs`: by value, ties broken by position. -/
def idxLe {α : Type} [LinearOrderedField α] (xs : List α) (i j : ℕ) : Prop :=
  xs.getD i 0 < xs.getD j 0 ∨ (xs.getD i 0 = xs.getD j 0 ∧ i ≤ j)

instance idxLe.decidable {α : Type} [LinearOrderedField α] (xs : List α) :
    DecidableRel (idxLe xs) := fun i j => by
  unfold idxLe; infer_instance

instance idxLe.isTotal {α : Type} [LinearOrderedField α] (xs : List α) :
    IsTotal ℕ (idxLe xs) := by
  constructor
  intro i j
  rcases lt_trichotomy (xs.getD i 0) (xs.getD j 0) with h | h | h
  · exact Or.inl (Or.inl h)
  · rcases Nat.le_total i j with hij | hij
    · exact Or.inl (Or.inr ⟨h, hij⟩)
    · exact Or.inr (Or.inr ⟨h.symm, hij⟩)
  · exact Or.inr (Or.inl h)

instance idxLe.isTrans {α : Type} [LinearOrderedField α] (xs : List α) :
    IsTrans ℕ (idxLe xs) := by
  constructor
  rintro i j k (h₁ | ⟨e₁, l₁⟩) (h₂ | ⟨e₂, l₂⟩)
  · exact Or.inl (h₁.trans h₂)
  · exact Or.inl (e₂ ▸ h₁)
  · exact Or.inl (e₁ ▸ h₂)
  · exact Or.inr ⟨e₁.trans e₂, l₁.trans l₂⟩

/-- Model of `np.argsort(xs)`: the list of positions of `xs` in ascending
order of value (ties by position). -/
def argsort {α : Type} [LinearOrderedField α] (xs : List α) : List ℕ :=
  List.insertionSort (idxLe xs) (List.range xs.length)

/-- Rank of position `i` of `xs` in the sorted order; this is
`rank_arr[i] * (n - 1)` of the source. -/
def rankOf {α : Type} [LinearOrderedField α] (xs : List α) (i : ℕ) : ℕ :=
  (argsort xs).indexOf i

/-- Model of the global `PERCENT_RANK` calibration block quoted above, as a
function of the `r_raw` column. `none` models the `ValueError` numpy raises
on an empty input. -/
def calibrate {α : Type} [LinearOrderedField α] [FloorRing α]
    (xs : List α) : Option (List α) :=
  if 1 < xs.length then
    some ((List.range xs.length).map fun i =>
      round2 ((rankOf xs i : α) / ((xs.length - 1 : ℕ) : α) * 100))
  else
    match xs with
    | [] => none
    | x :: _ => some [round2 (x / max x 1 * 100)]

/-- The calibrated score of position `i` (0 when out of range / raised). -/
def calibratedAt {α : Type} [LinearOrderedField α] [FloorRing α]
    (xs : List α) (i : ℕ) : α :=
  ((calibrate xs).getD []).getD i 0

/-- The calibrated score of the provider whose `r_raw` is `v` (first position
holding `v`; the populations this is applied to have pairwise-distinct
values). -/
def calibratedValue {α : Type} [LinearOrderedField α] [FloorRing α]
    [DecidableEq α] (xs : List α) (v : α) : α :=
  calibratedAt xs (xs.indexOf v)

/-! ### Configuration constants (`risk_scores.py` lines 53-86) -/

/-- Temporal decay factor `ALPHA = 0.7`. -/
def ALPHA {α : Type} [LinearOrderedField α] : α := 0.7

/-- Log-transform offset `EPSILON = 1.0`. -/
def EPSILON : ℝ := 1.0

/-- Robust scale factor `MAD_SCALE = 1.4826`. -/
def MAD_SCALE {α : Type} [LinearOrderedField α] : α := 1.4826

/-- Minimum primary peer-group size `PEER_MIN_SIZE = 50`. -/
def PEER_MIN_SIZE : ℕ := 50

/-- Minimum claims for peer-group eligibility `PEER_MIN_CLAIMS = 100`. -/
def PEER_MIN_CLAIMS {α : Type} [LinearOrderedField α] : α := 100

/-- Component weights (the `WEIGHTS` dict, in its source order). -/
def WEIGHTS {α : Type} [LinearOrderedField α] : List (String × α) :=
  [("billing_outlier_score", 0.30),
   ("ownership_chain_risk", 0.25),
   ("payment_trajectory_score", 0.20),
   ("exclusion_proximity_score", 0.15),
   ("program_concentration_score", 0.10)]

/-- Risk label thresholds (the `LABEL_THRESHOLDS` list, descending). -/
def LABEL_THRESHOLDS {α : Type} [LinearOrderedField α] : List (α × String) :=
  [(80, "High"), (60, "Elevated"), (30, "Moderate"), (0, "Low")]

/-! ### Pure statistical helpers (`risk_scores.py` lines 147-174) -/

/-- Model of `robust_zscore(values, target)` (lines 147-162). -/
def robust_zscore (values : List ℚ) (target : ℚ) : ℚ :=
  if values.length = 0 then 0
  else
    let med := npMedian values
    let mad := npMedian (values.map fun v => |v - med|)
    if mad < 1e-9 then clip ((target - med) / 1e-9) (-5) 5
    else clip ((target - med) / (MAD_SCALE * mad)) (-5) 5

/-- Model of `map_to_score(z) = 100.0 / (1.0 + math.exp(-z / 2.0))`
(lines 165-167). -/
noncomputable def map_to_score (z : ℝ) : ℝ :=
  100 / (1 + Real.exp (-z / 2))

/-- Scan of the threshold list inside `risk_label` (lines 170-174). -/
def labelScan {α : Type} [LinearOrderedField α] :
    List (α × String) → α → String
  | [], _ => "Low"
  | (t, l) :: rest, score => if t ≤ score then l else labelScan rest score

/-- Model of `risk_label(score)` (lines 170-174). -/
def risk_label {α : Type} [LinearOrderedField α] (score : α) : String :=
  labelScan LABEL_THRESHOLDS score

/-! ### Row types for the tabular data (`load_payments` / `load_providers` /
`load_exclusions` schemas, `risk_scores.py` lines 181-304) -/

/-- One row of `payments_combined_v`. The numeric type is a parameter so the
same record works for the `ℚ`-evaluable claims and the `ℝ` pipeline. -/
structure PaymentRow (α : Type) where
  npi : String
  year : ℤ
  program : String
  payments : α
  claims : α
  beneficiaries : α
  taxonomy : String
  state : String
deriving DecidableEq

/-- One row of the `providers` table. -/
structure ProviderRow where
  npi : String
  taxonomy_1 : String
  state : String
  is_excluded : Bool
  display_name : String
deriving DecidableEq

/-- One row of the `exclusions` table (`reinstated` is nullable). -/
structure ExclusionRow where
  npi : String
  excldate : String
  reinstated : Option Bool
deriving DecidableEq

/-! ### Program concentration (`compute_program_concentration`,
`risk_scores.py` lines 564-608) -/

/-- Sum of `payments` of the rows of `npi` for one `program`
(the `npi_program` group total). -/
def progTotal {α : Type} [LinearOrderedField α]
    (rows : List (PaymentRow α)) (npi prog : String) : α :=
  ((rows.filter fun r => r.npi == npi && r.program == prog).map (·.payments)).sum

/-- Sum of `payments` of all rows of `npi` (the `npi_total` group total). -/
def grandTotal {α : Type} [LinearOrderedField α]
    (rows : List (PaymentRow α)) (npi : String) : α :=
  ((rows.filter fun r => r.npi == npi).map (·.payments)).sum

/-- Distinct programs of `npi` among `rows`. -/
def progsOf {α : Type} (rows : List (PaymentRow α)) (npi : String) : List String :=
  firstKeys ((rows.filter fun r => r.npi == npi).map (·.program))

/-- Maximum per-program share for `npi`; the denominator is
`grand_total.clip(lower_bound=1)` exactly as in the source (line 588). -/
def maxShare {α : Type} [LinearOrderedField α]
    (rows : List (PaymentRow α)) (npi : String) : α :=
  listMax ((progsOf rows npi).map fun pr =>
    progTotal rows npi pr / max (grandTotal rows npi) 1)

/-- Score of one provider from its max share (lines 595-606, including the
final `.round(2)`). -/
def concScore {α : Type} [LinearOrderedField α] [FloorRing α]
    (rows : List (PaymentRow α)) (npi : String) : α :=
  round2 (if 1/2 < maxShare rows npi
          then min (200 * (maxShare rows npi - 1/2)) 100 else 0)

/-- Model of `compute_program_concentration(payments)` (lines 564-608):
restrict to the frame's most recent 3 years, then score each provider that
has recent rows. -/
def compute_program_concentration {α : Type} [LinearOrderedField α] [FloorRing α]
    (payments : List (PaymentRow α)) : List (String × α) :=
  if payments.isEmpty then []
  else
    let maxYear := listMax (payments.map (·.year))
    let recent := payments.filter fun p => decide (maxYear - 2 ≤ p.year)
    (firstKeys (recent.map (·.npi))).map fun n => (n, concScore recent n)

/-! ### Exclusion proximity (`compute_exclusion_proximity`,
`risk_scores.py` lines 615-652) -/

/-- NPIs with an active direct exclusion:
`exclusions_df.filter(reinstated.fill_null(False) == False)` (lines 631-637).
-/
def activeExclusionNpis (excl : List ExclusionRow) : List String :=
  (excl.filter fun e => e.reinstated.getD false == false).map (·.npi)

/-- Model of `compute_exclusion_proximity(exclusions_df, providers_df,
chain_excluded, owner_excluded)`: the 100/80/50/0 cascade per provider row.
-/
def compute_exclusion_proximity {α : Type} [LinearOrderedField α]
    (exclusions_df : List ExclusionRow) (providers_df : List ProviderRow)
    (chain_excluded : List (String × ℕ)) (owner_excluded : List String) :
    List (String × α) :=
  let directly_excluded := activeExclusionNpis exclusions_df
  providers_df.map fun p =>
    (p.npi,
      if p.npi ∈ directly_excluded then 100
      else if p.npi ∈ owner_excluded then 80
      else if 0 < (chain_excluded.lookup p.npi).getD 0 then 50
      else 0)

/-! ### Composite scoring (`compute_composite`, `risk_scores.py`
lines 785-820) -/

/-- The five component scores of one provider, as joined into the `scores`
frame that `compute_composite` receives. -/
structure CompRow (α : Type) where
  npi : String
  billing_outlier_score : α
  ownership_chain_risk : α
  payment_trajectory_score : α
  exclusion_proximity_score : α
  program_concentration_score : α
deriving DecidableEq

/-- The weighted sum `r_raw` (lines 790-798; the literals are the entries of
`WEIGHTS`, in the order the expression multiplies them). -/
def r_rawOf {α : Type} [LinearOrderedField α] (r : CompRow α) : α :=
  r.billing_outlier_score * 0.30 + r.ownership_chain_risk * 0.25 +
    r.payment_trajectory_score * 0.20 + r.exclusion_proximity_score * 0.15 +
    r.program_concentration_score * 0.10

/-- Output row of `compute_composite`. -/
structure CompositeRow (α : Type) where
  npi : String
  r_raw : α
  risk_score : α
  risk_label : String
deriving DecidableEq

/-- Model of `compute_composite(scores)` (lines 785-820): compute `r_raw`,
calibrate globally, attach labels. `none` models the `ValueError` the
calibration block raises on an empty population. -/
def compute_composite {α : Type} [LinearOrderedField α] [FloorRing α]
    (rows : List (CompRow α)) : Option (List (CompositeRow α)) :=
  let rr := rows.map r_rawOf
  (calibrate rr).map fun cal =>
    rows.zipWith (fun r c => ⟨r.npi, r_rawOf r, c, risk_label c⟩) cal

/-! ### Peer metrics engine (`compute_peer_metrics`, `risk_scores.py`
lines 311-429), over `ℝ` because of the `log` transform -/

/-- One row of the NPI-year aggregation (the `agg` frame of lines 320-345). -/
structure AggRow where
  npi : String
  year : ℤ
  taxonomy : String
  state : String
  taxonomy_10 : String
  total_payments : ℝ
  total_claims : ℝ
  total_beneficiaries : ℝ
  lm1 : ℝ
  lm2 : ℝ
  lm3 : ℝ

/-- One output row of `compute_peer_metrics` (the columns selected at
lines 418-428 that later stages read). -/
structure PMRow where
  npi : String
  year : ℤ
  taxonomy_10 : String
  state : String
  z_lm1 : ℝ
  z_lm2 : ℝ
  z_lm3 : ℝ
  total_payments : ℝ
  total_claims : ℝ

/-- Median/MAD of the three log metrics over one peer group plus the group
size (`_med_mad` of lines 354-359 and the `pl.len()` count). -/
structure PeerStats where
  med1 : ℝ
  mad1 : ℝ
  med2 : ℝ
  mad2 : ℝ
  med3 : ℝ
  mad3 : ℝ
  cnt : ℕ

/-- Group-by `(npi, year, taxonomy, state)` with summed payments/claims/
beneficiaries, then the derived `m1/m2/m3` and log metrics (lines 320-345).
-/
noncomputable def aggregateNpiYear (payments : List (PaymentRow ℝ)) : List AggRow :=
  (firstKeys (payments.map fun p => (p.npi, p.year, p.taxonomy, p.state))).map
    fun k =>
      let g := payments.filter fun p =>
        p.npi == k.1 && p.year == k.2.1 && p.taxonomy == k.2.2.1 && p.state == k.2.2.2
      let tp := (g.map (·.payments)).sum
      let tc := (g.map (·.claims)).sum
      let tb := (g.map (·.beneficiaries)).sum
      { npi := k.1, year := k.2.1, taxonomy := k.2.2.1, state := k.2.2.2,
        taxonomy_10 := k.2.2.1.take 10,
        total_payments := tp, total_claims := tc, total_beneficiaries := tb,
        lm1 := Real.log (tp / max tc 1 + EPSILON),
        lm2 := Real.log (tc / max tb 1 + EPSILON),
        lm3 := Real.log (tp + EPSILON) }

/-- Median/MAD statistics of one peer group. -/
noncomputable def mkStats (g : List AggRow) : PeerStats :=
  let med1 := npMedian (g.map (·.lm1))
  let med2 := npMedian (g.map (·.lm2))
  let med3 := npMedian (g.map (·.lm3))
  { med1 := med1, mad1 := npMedian (g.map fun r => |r.lm1 - med1|),
    med2 := med2, mad2 := npMedian (g.map fun r => |r.lm2 - med2|),
    med3 := med3, mad3 := npMedian (g.map fun r => |r.lm3 - med3|),
    cnt := g.length }

/-- Primary peer-group statistics, keyed by `(taxonomy_10, state, year)`
(lines 361-364). -/
noncomputable def primaryStats (peers : List AggRow) :
    List ((String × String × ℤ) × PeerStats) :=
  (firstKeys (peers.map fun r => (r.taxonomy_10, r.state, r.year))).map fun k =>
    (k, mkStats (peers.filter fun r =>
      r.taxonomy_10 == k.1 && r.state == k.2.1 && r.year == k.2.2))

/-- Fallback peer-group statistics, keyed by `(taxonomy_10, year)`
(lines 365-368). -/
noncomputable def fallbackStats (peers : List AggRow) :
    List ((String × ℤ) × PeerStats) :=
  (firstKeys (peers.map fun r => (r.taxonomy_10, r.year))).map fun k =>
    (k, mkStats (peers.filter fun r => r.taxonomy_10 == k.1 && r.year == k.2))

/-- Statistics used for one aggregated row: primary when the primary group
joined and has at least `PEER_MIN_SIZE` members, otherwise the fallback
group's; `none` when the row joined no primary group (the `pl.when` condition
is null, and a null condition propagates null through `then/otherwise`),
or when the chosen side joined nothing. A `none` becomes z = 0 via
`fill_null(0.0)` (lines 370-392, 423-426). -/
noncomputable def chosenStats (ps : List ((String × String × ℤ) × PeerStats))
    (fs : List ((String × ℤ) × PeerStats)) (r : AggRow) : Option PeerStats :=
  match ps.lookup (r.taxonomy_10, r.state, r.year) with
  | none => none
  | some p =>
      if PEER_MIN_SIZE ≤ p.cnt then some p
      else fs.lookup (r.taxonomy_10, r.year)

/-- Vectorized robust z of one metric: `(x − med) / (MAD_SCALE ·
mad.clip(lower_bound=1e-9))`, clipped to `[−5, 5]` (lines 380-389). Note the
difference from `robust_zscore`: here the degenerate-MAD denominator keeps
the `MAD_SCALE` factor. -/
noncomputable def zFromStats (x med mad : ℝ) : ℝ :=
  clip ((x - med) / (MAD_SCALE * max mad 1e-9)) (-5) 5

/-- Model of `compute_peer_metrics(payments)` (lines 311-429). -/
noncomputable def compute_peer_metrics (payments : List (PaymentRow ℝ)) :
    List PMRow :=
  let agg := aggregateNpiYear payments
  if agg.isEmpty then []
  else
    let peers := filterP (fun r => PEER_MIN_CLAIMS ≤ r.total_claims) agg
    let ps := primaryStats peers
    let fs := fallbackStats peers
    agg.map fun r =>
      let s := chosenStats ps fs r
      { npi := r.npi, year := r.year, taxonomy_10 := r.taxonomy_10,
        state := r.state,
        z_lm1 := (s.map fun t => zFromStats r.lm1 t.med1 t.mad1).getD 0,
        z_lm2 := (s.map fun t => zFromStats r.lm2 t.med2 t.mad2).getD 0,
        z_lm3 := (s.map fun t => zFromStats r.lm3 t.med3 t.mad3).getD 0,
        total_payments := r.total_payments, total_claims := r.total_claims }

/-! ### Billing outlier score (`compute_billing_score`, `risk_scores.py`
lines 437-488) -/

/-- Model of `compute_billing_score(peer_metrics)`, reduced to the
`(npi, billing_outlier_score)` columns (the other outputs are diagnostics;
see the scope note). Per year: clip each z at 0, average the three, weight by
`ALPHA^(max_year − year)`; the weighted mean z maps through the logistic and
is rounded to 2 decimals (lines 444-472). -/
noncomputable def compute_billing_score (pm : List PMRow) : List (String × ℝ) :=
  if pm.isEmpty then []
  else
    let maxYear := listMax (pm.map (·.year))
    (firstKeys (pm.map (·.npi))).map fun npi =>
      let g := pm.filter fun r => r.npi == npi
      let ws := (g.map fun r =>
        (ALPHA : ℝ) ^ (maxYear - r.year).toNat *
          ((max r.z_lm1 0 + max r.z_lm2 0 + max r.z_lm3 0) / 3)).sum
      let wt := (g.map fun r => (ALPHA : ℝ) ^ (maxYear - r.year).toNat).sum
      (npi, round2 (100 / (1 + Real.exp (-(ws / max wt 1e-9) / 2))))

/-! ### Payment trajectory score (`compute_trajectory_score`,
`risk_scores.py` lines 494-557) -/

/-- One row of the `npi_yearly` growth frame (lines 505-521). -/
structure GRow where
  npi : String
  year : ℤ
  taxonomy_10 : String
  state : String
  growth : ℝ

/-- Year-over-year growth rows: per NPI, sort by year, pair consecutive
rows, `growth = (cur − prev) / prev.clip(lower_bound=1)`; rows with no
previous year are dropped (lines 505-521). -/
noncomputable def growthRows (pm : List PMRow) : List GRow :=
  ((firstKeys (pm.map (·.npi))).map fun npi =>
    let s := List.insertionSort (fun a b => a.year ≤ b.year)
      (pm.filter fun r => r.npi == npi)
    (s.zip s.tail).map fun pr =>
      { npi := pr.2.npi, year := pr.2.year, taxonomy_10 := pr.2.taxonomy_10,
        state := pr.2.state,
        growth := (pr.2.total_payments - pr.1.total_payments) /
          max pr.1.total_payments 1 }).flatten

/-- Model of `compute_trajectory_score(peer_metrics)`, reduced to
`(npi, payment_trajectory_score)` (the rounded z-score output column feeds
nothing downstream; see the scope note). Growth is robust-z-scored against
the `(taxonomy_10, state, year)` peers, clipped to `[0, 5]`, decay-weighted
and logistic-mapped (lines 523-557). -/
noncomputable def compute_trajectory_score (pm : List PMRow) : List (String × ℝ) :=
  if pm.isEmpty then []
  else
    let gr := growthRows pm
    if gr.isEmpty then []
    else
      let maxYear := listMax (gr.map (·.year))
      let stats := (firstKeys (gr.map fun r => (r.taxonomy_10, r.state, r.year))).map
        fun k =>
          let g := gr.filter fun r =>
            r.taxonomy_10 == k.1 && r.state == k.2.1 && r.year == k.2.2
          let med := npMedian (g.map (·.growth))
          (k, (med, npMedian (g.map fun r => |r.growth - med|)))
      (firstKeys (gr.map (·.npi))).map fun npi =>
        let g := gr.filter fun r => r.npi == npi
        let ws := (g.map fun r =>
          (ALPHA : ℝ) ^ (maxYear - r.year).toNat *
            (match stats.lookup (r.taxonomy_10, r.state, r.year) with
             | none => 0
             | some m =>
                max (clip ((r.growth - m.1) / (MAD_SCALE * max m.2 1e-9)) (-5) 5) 0)).sum
        let wt := (g.map fun r => (ALPHA : ℝ) ^ (maxYear - r.year).toNat).sum
        (npi, round2 (100 / (1 + Real.exp (-(ws / max wt 1e-9) / 2))))

/-! ### Batched Neo4j ownership resolution (`claidex_modal.py`
lines 190-339) -/

/-- One row returned per NPI by the batched UNWIND query (the `RETURN`
clause at lines 279-283). -/
structure GraphRecord where
  npi : String
  chain_provider_count : ℕ
  chain_excluded_count : ℕ
  owner_excluded_count : ℕ
deriving DecidableEq

/-- Per-NPI ownership result as stored in `neo4j_results`
(lines 292-306 for a successful query, lines 311-318 for the `except`
branch that degrades every NPI of the batch to zeros). -/
structure OwnershipResult where
  npi : String
  ownership_chain_risk : ℝ
  chain_excluded_count : ℕ
  owner_excluded : Bool

/-- Model of the `try/except` around the batched query: on success,
`oc_risk = min(100, 100·excluded/max(total,1))` rounded to 2 decimals and
`owner_excluded = owner_excluded_count > 0`; on any error, zeros for every
NPI of the batch. -/
noncomputable def neo4jResults (npi_batch : List String)
    (graph : Except Unit (List GraphRecord)) : List OwnershipResult :=
  match graph with
  | .ok recs => recs.map fun r =>
      { npi := r.npi,
        ownership_chain_risk :=
          round2 (min 100 ((100 * (r.chain_excluded_count : ℝ)) /
            max (r.chain_provider_count : ℝ) 1)),
        chain_excluded_count := r.chain_excluded_count,
        owner_excluded := decide (0 < r.owner_excluded_count) }
  | .error _ => npi_batch.map fun n =>
      { npi := n, ownership_chain_risk := 0, chain_excluded_count := 0,
        owner_excluded := false }

/-- The `chain_excluded_counts` dict (lines 332-335). -/
def chainCountsOf (results : List OwnershipResult) : List (String × ℕ) :=
  results.map fun r => (r.npi, r.chain_excluded_count)

/-- The `owner_excluded_set` (lines 336-339). -/
def ownerExcludedSetOf (results : List OwnershipResult) : List String :=
  (results.filter (·.owner_excluded)).map (·.npi)

/-! ### Batch assembly and merge (`claidex_modal.py` lines 350-452 and
459-538) -/

/-- One row of a batch output chunk (the columns of lines 420-439 that later
stages read; `chain_excluded_count` is joined as a numeric column and
`fill_null(0.0)`-ed, hence `ℝ`). -/
structure BatchRow where
  npi : String
  risk_score : ℝ
  risk_label : String
  r_raw : ℝ
  billing_outlier_score : ℝ
  ownership_chain_risk : ℝ
  payment_trajectory_score : ℝ
  exclusion_proximity_score : ℝ
  program_concentration_score : ℝ
  chain_excluded_count : ℝ

/-- Left-join of the component frames onto the billing frame by `npi` with
`fill_null(0.0)` (lines 352-369; a component frame that is empty is skipped
by the `if not df.is_empty()` guard and its column is created as literal 0,
which coincides with a lookup miss), then `r_raw` as the weighted sum of
lines 375-383 and the per-batch placeholders `risk_score = r_raw`,
`risk_label = "Pending"` (lines 385-390, 420-424). -/
noncomputable def assembleScores (billing traj conc exclp : List (String × ℝ))
    (own : List OwnershipResult) : List BatchRow :=
  billing.map fun b =>
    let ownR := own.find? fun r => r.npi == b.1
    let r_raw := b.2 * 0.30 + ((ownR.map (·.ownership_chain_risk)).getD 0) * 0.25 +
      ((traj.lookup b.1).getD 0) * 0.20 + ((exclp.lookup b.1).getD 0) * 0.15 +
      ((conc.lookup b.1).getD 0) * 0.10
    { npi := b.1, risk_score := r_raw, risk_label := "Pending", r_raw := r_raw,
      billing_outlier_score := b.2,
      ownership_chain_risk := (ownR.map (·.ownership_chain_risk)).getD 0,
      payment_trajectory_score := (traj.lookup b.1).getD 0,
      exclusion_proximity_score := (exclp.lookup b.1).getD 0,
      program_concentration_score := (conc.lookup b.1).getD 0,
      chain_excluded_count :=
        (ownR.map fun r => (r.chain_excluded_count : ℝ)).getD 0 }

/-- Model of `process_npi_batch(batch_index, npi_batch, postgres_url)`
(`claidex_modal.py` lines 96-452): filter the shared frames to the batch,
return no rows when the batch has no payment data (the early `return ""`),
otherwise run all five component computations and assemble the chunk. -/
noncomputable def process_npi_batch (npi_batch : List String)
    (payments_all : List (PaymentRow ℝ)) (providers_all : List ProviderRow)
    (exclusions_all : List ExclusionRow)
    (graph : Except Unit (List GraphRecord)) : List BatchRow :=
  let payments := payments_all.filter fun p => npi_batch.contains p.npi
  let providers_df := providers_all.filter fun p => npi_batch.contains p.npi
  let exclusions_df := exclusions_all.filter fun e => npi_batch.contains e.npi
  if payments.isEmpty then []
  else
    let peer_metrics := compute_peer_metrics payments
    let billing := compute_billing_score peer_metrics
    let traj := compute_trajectory_score peer_metrics
    let conc := compute_program_concentration payments
    let results := neo4jResults npi_batch graph
    let exclp := compute_exclusion_proximity exclusions_df providers_df
      (chainCountsOf results) (ownerExcludedSetOf results)
    assembleScores billing traj conc exclp results

/-- Model of `merge_results(postgres_url, ...)` (`claidex_modal.py`
lines 464-614): with no chunks, return early; otherwise concatenate all
chunks in batch-index order, run the global calibration on `r_raw` (`none`
models the raise on an empty concatenation), attach final labels, and sort
by `npi`. -/
noncomputable def merge_results (chunks : List (List BatchRow)) :
    Option (List BatchRow) :=
  if chunks.isEmpty then some []
  else
    let df := chunks.flatten
    (calibrate (df.map (·.r_raw))).map fun cal =>
      List.insertionSort (fun a b => a.npi ≤ b.npi)
        (df.zipWith (fun r c => { r with risk_score := c, risk_label := risk_label c }) cal)

/-- The `r_raw` column value of the (first) row of `npi`. -/
def rRawOf (rows : List BatchRow) (npi : String) : Option ℝ :=
  (rows.find? fun r => r.npi == npi).map (·.r_raw)

/-! ### Concrete data used in the theorems below

Two providers: provider "1" with a single payment row in 2023, provider "2"
with a single payment row in 2020. Claims are below `PEER_MIN_CLAIMS`, so
every peer group is empty and all z-scores are 0; one year per provider, so
there are no growth rows. -/

/-- Payment rows of the two-provider example population. -/
def exPayments : List (PaymentRow ℝ) :=
  [⟨"1", 2023, "MC", 10, 1, 1, "TAXA", "CA"⟩,
   ⟨"2", 2020, "MC", 10, 1, 1, "TAXB", "CA"⟩]

/-- Provider rows of the example population. -/
def exProviders : List ProviderRow :=
  [⟨"1", "TAXA", "CA", false, "Alpha Facility"⟩,
   ⟨"2", "TAXB", "CA", false, "Beta Facility"⟩]

/-- Exclusion rows of the example population (none). -/
def exExclusions : List ExclusionRow := []

/-- The single-batch run of the example population (graph store down). -/
noncomputable def exSingleRun : List BatchRow :=
  process_npi_batch ["1", "2"] exPayments exProviders exExclusions
    (Except.error ())

/-- The two-batch run of the example population, one provider per batch
(graph store down in both batches). -/
noncomputable def exSplitRun : List (List BatchRow) :=
  [process_npi_batch ["1"] exPayments exProviders exExclusions
     (Except.error ()),
   process_npi_batch ["2"] exPayments exProviders exExclusions
     (Except.error ())]

/-! ### Lemmas about rounding -/

theorem floor_le_roundHalfEven {α : Type} [LinearOrderedField α] [FloorRing α]
    (x : α) : ⌊x⌋ ≤ roundHalfEven x := by
  unfold roundHalfEven
  split_ifs <;> omega

theorem roundHalfEven_le_floor_add_one {α : Type} [LinearOrderedField α]
    [FloorRing α] (x : α) : roundHalfEven x ≤ ⌊x⌋ + 1 := by
  unfold roundHalfEven
  split_ifs <;> omega

theorem roundHalfEven_intCast {α : Type} [LinearOrderedField α] [FloorRing α]
    (k : ℤ) : roundHalfEven ((k : α)) = k := by
  unfold roundHalfEven
  rw [Int.floor_intCast, sub_self]
  norm_num

theorem roundHalfEven_mono {α : Type} [LinearOrderedField α] [FloorRing α]
    {x y : α} (h : x ≤ y) : roundHalfEven x ≤ roundHalfEven y := by
  have hf : ⌊x⌋ ≤ ⌊y⌋ := Int.floor_mono h
  rcases hf.lt_or_eq with hlt | heq
  · have h1 := roundHalfEven_le_floor_add_one x
    have h2 := floor_le_roundHalfEven y
    omega
  · unfold roundHalfEven
    rw [heq]
    split_ifs <;> first | omega | linarith

theorem round2_intCast {α : Type} [LinearOrderedField α] [FloorRing α]
    (k : ℤ) : round2 ((k : α)) = (k : α) := by
  unfold round2
  have h : ((k : α)) * 100 = ((k * 100 : ℤ) : α) := by push_cast; ring
  rw [h, roundHalfEven_intCast]
  push_cast
  field_simp

theorem round2_mono {α : Type} [LinearOrderedField α] [FloorRing α]
    {x y : α} (h : x ≤ y) : round2 x ≤ round2 y := by
  unfold round2
  rw [div_le_div_iff_of_pos_right (by norm_num : (0:α) < 100)]
  exact_mod_cast roundHalfEven_mono (by linarith)

/-! ### Lemmas about `argsort` and `rankOf` -/

theorem argsort_perm {α : Type} [LinearOrderedField α] (xs : List α) :
    (argsort xs).Perm (List.range xs.length) :=
  List.perm_insertionSort _ _

theorem argsort_length {α : Type} [LinearOrderedField α] (xs : List α) :
    (argsort xs).length = xs.length := by
  simpa using (argsort_perm xs).length_eq

theorem mem_argsort {α : Type} [LinearOrderedField α] (xs : List α) {i : ℕ} :
    i ∈ argsort xs ↔ i < xs.length := by
  rw [(argsort_perm xs).mem_iff, List.mem_range]

theorem argsort_nodup {α : Type} [LinearOrderedField α] (xs : List α) :
    (argsort xs).Nodup :=
  ((argsort_perm xs).nodup_iff).2 (List.nodup_range _)

theorem argsort_sorted {α : Type} [LinearOrderedField α] (xs : List α) :
    (argsort xs).Sorted (idxLe xs) :=
  List.sorted_insertionSort _ _

theorem rankOf_lt_length {α : Type} [LinearOrderedField α] {xs : List α}
    {i : ℕ} (h : i < xs.length) : rankOf xs i < xs.length := by
  have hm : i ∈ argsort xs := (mem_argsort xs).2 h
  have := List.indexOf_lt_length.2 hm
  rwa [argsort_length] at this

theorem rankOf_strictMono {α : Type} [LinearOrderedField α] {xs : List α}
    {i j : ℕ} (hi : i < xs.length) (hj : j < xs.length)
    (hv : xs.getD i 0 < xs.getD j 0) : rankOf xs i < rankOf xs j := by
  have hmi : i ∈ argsort xs := (mem_argsort xs).2 hi
  have hmj : j ∈ argsort xs := (mem_argsort xs).2 hj
  have hpi : (argsort xs).indexOf i < (argsort xs).length :=
    List.indexOf_lt_length.2 hmi
  have hpj : (argsort xs).indexOf j < (argsort xs).length :=
    List.indexOf_lt_length.2 hmj
  by_contra hc
  push_neg at hc
  have hne : (argsort xs).indexOf j ≠ (argsort xs).indexOf i := by
    intro he
    have h1 := List.indexOf_get hpj
    have h2 := List.indexOf_get hpi
    rw [show (⟨(argsort xs).indexOf j, hpj⟩ : Fin (argsort xs).length) =
        ⟨(argsort xs).indexOf i, hpi⟩ from Fin.ext he, h2] at h1
    rw [h1] at hv
    exact lt_irrefl _ hv
  have hlt : (argsort xs).indexOf j < (argsort xs).indexOf i :=
    lt_of_le_of_ne hc hne
  have hr := (argsort_sorted xs).rel_get_of_lt
    (show (⟨(argsort xs).indexOf j, hpj⟩ : Fin (argsort xs).length) <
      ⟨(argsort xs).indexOf i, hpi⟩ from hlt)
  rw [List.indexOf_get hpj, List.indexOf_get hpi] at hr
  rcases hr with h | ⟨he, _⟩
  · exact absurd hv (lt_asymm h)
  · rw [he] at hv
    exact lt_irrefl _ hv

theorem rankOf_eq_zero_of_strict_min {α : Type} [LinearOrderedField α]
    {xs : List α} {i : ℕ} (hi : i < xs.length)
    (hmin : ∀ j, j < xs.length → j ≠ i → xs.getD i 0 < xs.getD j 0) :
    rankOf xs i = 0 := by
  by_contra h0
  have hmi : i ∈ argsort xs := (mem_argsort xs).2 hi
  have hpi : (argsort xs).indexOf i < (argsort xs).length :=
    List.indexOf_lt_length.2 hmi
  have hpos : 0 < (argsort xs).indexOf i := Nat.pos_of_ne_zero h0
  have h0len : 0 < (argsort xs).length := lt_trans hpos hpi
  have hr := (argsort_sorted xs).rel_get_of_lt
    (show (⟨0, h0len⟩ : Fin (argsort xs).length) <
      ⟨(argsort xs).indexOf i, hpi⟩ from hpos)
  rw [List.indexOf_get hpi] at hr
  have hjmem : (argsort xs).get ⟨0, h0len⟩ ∈ argsort xs := List.get_mem _ _ _
  have hjlen : (argsort xs).get ⟨0, h0len⟩ < xs.length :=
    (mem_argsort xs).1 hjmem
  have hji : (argsort xs).get ⟨0, h0len⟩ ≠ i := by
    intro he
    have h2 : (argsort xs).get ⟨0, h0len⟩ =
        (argsort xs).get ⟨(argsort xs).indexOf i, hpi⟩ := by
      rw [he, List.indexOf_get hpi]
    have h3 := ((argsort_nodup xs).get_inj_iff).1 h2
    simp only [Fin.mk.injEq] at h3
    omega
  have hlt := hmin _ hjlen hji
  rcases hr with h | ⟨he, _⟩
  · exact absurd hlt (lt_asymm h)
  · rw [he] at hlt
    exact lt_irrefl _ hlt

theorem rankOf_eq_last_of_strict_max {α : Type} [LinearOrderedField α]
    {xs : List α} {i : ℕ} (hi : i < xs.length)
    (hmax : ∀ j, j < xs.length → j ≠ i → xs.getD j 0 < xs.getD i 0) :
    rankOf xs i = xs.length - 1 := by
  have hmi : i ∈ argsort xs := (mem_argsort xs).2 hi
  have hpi : (argsort xs).indexOf i < (argsort xs).length :=
    List.indexOf_lt_length.2 hmi
  have hlen := argsort_length xs
  by_contra hne
  have hsucc : (argsort xs).indexOf i + 1 < (argsort xs).length := by
    unfold rankOf at hne
    omega
  have hr := (argsort_sorted xs).rel_get_of_lt
    (show (⟨(argsort xs).indexOf i, hpi⟩ : Fin (argsort xs).length) <
      ⟨(argsort xs).indexOf i + 1, hsucc⟩ from Nat.lt_succ_self _)
  rw [List.indexOf_get hpi] at hr
  have hjmem : (argsort xs).get ⟨(argsort xs).indexOf i + 1, hsucc⟩ ∈ argsort xs :=
    List.get_mem _ _ _
  have hjlen : (argsort xs).get ⟨(argsort xs).indexOf i + 1, hsucc⟩ < xs.length :=
    (mem_argsort xs).1 hjmem
  have hji : (argsort xs).get ⟨(argsort xs).indexOf i + 1, hsucc⟩ ≠ i := by
    intro he
    have h2 : (argsort xs).get ⟨(argsort xs).indexOf i + 1, hsucc⟩ =
        (argsort xs).get ⟨(argsort xs).indexOf i, hpi⟩ := by
      rw [he, List.indexOf_get hpi]
    have h3 := ((argsort_nodup xs).get_inj_iff).1 h2
    simp only [Fin.mk.injEq] at h3
    omega
  have hlt := hmax _ hjlen hji
  rcases hr with h | ⟨he, _⟩
  · exact absurd hlt (lt_asymm h)
  · rw [he] at hlt
    exact lt_irrefl _ hlt

theorem map_getD_range {α : Type} [LinearOrderedField α] (xs : List α) :
    (List.range xs.length).map (fun j => xs.getD j 0) = xs := by
  apply List.ext_getElem
  · simp
  · intro n h1 h2
    simp only [List.getElem_map, List.getElem_range]
    exact List.getD_eq_getElem xs 0 h2

theorem rankOf_eq_countP {α : Type} [LinearOrderedField α] {xs : List α}
    (hnd : xs.Nodup) {i : ℕ} (hi : i < xs.length) :
    rankOf xs i = xs.countP (fun v => decide (v < xs.getD i 0)) := by
  have hmi : i ∈ argsort xs := (mem_argsort xs).2 hi
  have hpi : (argsort xs).indexOf i < (argsort xs).length :=
    List.indexOf_lt_length.2 hmi
  have hval : ∀ a b, a < xs.length → b < xs.length →
      xs.getD a 0 = xs.getD b 0 → a = b := by
    intro a b ha hb hab
    rw [List.getD_eq_getElem xs 0 ha, List.getD_eq_getElem xs 0 hb] at hab
    exact (hnd.getElem_inj_iff).1 hab
  have hbefore : ∀ k (hk : k < (argsort xs).length), k < (argsort xs).indexOf i →
      (fun j => decide (xs.getD j 0 < xs.getD i 0)) ((argsort xs).get ⟨k, hk⟩) = true := by
    intro k hk hkpi
    have hr := (argsort_sorted xs).rel_get_of_lt
      (show (⟨k, hk⟩ : Fin (argsort xs).length) <
        ⟨(argsort xs).indexOf i, hpi⟩ from hkpi)
    rw [List.indexOf_get hpi] at hr
    have hkm : (argsort xs).get ⟨k, hk⟩ < xs.length :=
      (mem_argsort xs).1 (List.get_mem _ _ _)
    have hkne : (argsort xs).get ⟨k, hk⟩ ≠ i := by
      intro he
      have h2 : (argsort xs).get ⟨k, hk⟩ =
          (argsort xs).get ⟨(argsort xs).indexOf i, hpi⟩ := by
        rw [he, List.indexOf_get hpi]
      have h3 := ((argsort_nodup xs).get_inj_iff).1 h2
      simp only [Fin.mk.injEq] at h3
      omega
    rcases hr with h | ⟨he, _⟩
    · simpa using h
    · exact absurd (hval _ _ hkm hi he) hkne
  have hafter : ∀ k (hk : k < (argsort xs).length), (argsort xs).indexOf i ≤ k →
      (fun j => decide (xs.getD j 0 < xs.getD i 0)) ((argsort xs).get ⟨k, hk⟩) = false := by
    intro k hk hkpi
    show decide (xs.getD ((argsort xs).get ⟨k, hk⟩) 0 < xs.getD i 0) = false
    rcases Nat.eq_or_lt_of_le hkpi with he | hlt
    · have hgi : (argsort xs).get ⟨k, hk⟩ = i := by
        have := List.indexOf_get hpi
        rw [show (⟨k, hk⟩ : Fin (argsort xs).length) =
          ⟨(argsort xs).indexOf i, hpi⟩ from Fin.ext he.symm]
        exact this
      rw [hgi]
      simp
    · have hr := (argsort_sorted xs).rel_get_of_lt
        (show (⟨(argsort xs).indexOf i, hpi⟩ : Fin (argsort xs).length) <
          ⟨k, hk⟩ from hlt)
      rw [List.indexOf_get hpi] at hr
      rcases hr with h | ⟨he, _⟩
      · simpa using le_of_lt h
      · simpa using le_of_eq he
  have hsplit : List.countP (fun j => decide (xs.getD j 0 < xs.getD i 0)) (argsort xs) =
      (argsort xs).indexOf i := by
    conv_lhs => rw [← List.take_append_drop ((argsort xs).indexOf i) (argsort xs)]
    rw [List.countP_append]
    have htake : List.countP (fun j => decide (xs.getD j 0 < xs.getD i 0))
        (List.take ((argsort xs).indexOf i) (argsort xs)) = (argsort xs).indexOf i := by
      have hall : ∀ a ∈ List.take ((argsort xs).indexOf i) (argsort xs),
          (fun j => decide (xs.getD j 0 < xs.getD i 0)) a = true := by
        intro a ha
        obtain ⟨k, hk, hka⟩ := List.mem_iff_getElem.1 ha
        rw [List.length_take] at hk
        have hk2 : k < (argsort xs).length := lt_of_lt_of_le hk (min_le_right _ _)
        have hkpi : k < (argsort xs).indexOf i := lt_of_lt_of_le hk (min_le_left _ _)
        have hg : (List.take ((argsort xs).indexOf i) (argsort xs))[k] =
            (argsort xs)[k] := List.getElem_take _
        have hb := hbefore k hk2 hkpi
        rw [List.get_eq_getElem] at hb
        rw [hg] at hka
        rw [← hka]
        exact hb
      rw [List.countP_eq_length.2 hall, List.length_take,
        min_eq_left (le_of_lt hpi)]
    have hdrop : List.countP (fun j => decide (xs.getD j 0 < xs.getD i 0))
        (List.drop ((argsort xs).indexOf i) (argsort xs)) = 0 := by
      rw [List.countP_eq_zero]
      intro a ha
      obtain ⟨k, hk, hka⟩ := List.mem_iff_getElem.1 ha
      rw [List.length_drop] at hk
      have hk2 : (argsort xs).indexOf i + k < (argsort xs).length := by omega
      have hg : (List.drop ((argsort xs).indexOf i) (argsort xs))[k] =
          (argsort xs)[(argsort xs).indexOf i + k] := List.getElem_drop _
      have hb := hafter ((argsort xs).indexOf i + k) hk2 (Nat.le_add_right _ _)
      have hb2 : (fun j => decide (xs.getD j 0 < xs.getD i 0))
          ((argsort xs)[(argsort xs).indexOf i + k]) = false := hb
      rw [hg] at hka
      rw [← hka]
      simp only [hb2]
      simp
    rw [htake, hdrop]
    omega
  have hperm := (argsort_perm xs).countP_eq
    (fun j => decide (xs.getD j 0 < xs.getD i 0))
  have hxs : ∀ c : α, xs.countP (fun v => decide (v < c)) =
      List.countP (fun j => decide (xs.getD j 0 < c)) (List.range xs.length) := by
    intro c
    conv_lhs => rw [← map_getD_range xs]
    rw [List.countP_map]
    rfl
  unfold rankOf
  rw [hxs (xs.getD i 0), ← hperm, hsplit]

/-! ### Lemmas about `calibrate` -/

theorem calibrate_of_one_lt {α : Type} [LinearOrderedField α] [FloorRing α]
    {xs : List α} (h : 1 < xs.length) :
    calibrate xs = some ((List.range xs.length).map fun i =>
      round2 ((rankOf xs i : α) / ((xs.length - 1 : ℕ) : α) * 100)) := by
  unfold calibrate
  rw [if_pos h]

theorem calibratedAt_eq {α : Type} [LinearOrderedField α] [FloorRing α]
    {xs : List α} (h : 1 < xs.length) {i : ℕ} (hi : i < xs.length) :
    calibratedAt xs i =
      round2 ((rankOf xs i : α) / ((xs.length - 1 : ℕ) : α) * 100) := by
  unfold calibratedAt
  rw [calibrate_of_one_lt h, Option.getD_some,
    List.getD_eq_getElem _ 0 (by simpa using hi)]
  simp

theorem calibratedAt_of_strict_min {α : Type} [LinearOrderedField α]
    [FloorRing α] {xs : List α} (h : 1 < xs.length) {i : ℕ}
    (hi : i < xs.length)
    (hmin : ∀ j, j < xs.length → j ≠ i → xs.getD i 0 < xs.getD j 0) :
    calibratedAt xs i = 0 := by
  rw [calibratedAt_eq h hi, rankOf_eq_zero_of_strict_min hi hmin]
  norm_num
  simpa using @round2_intCast α _ _ 0

theorem calibratedAt_of_strict_max {α : Type} [LinearOrderedField α]
    [FloorRing α] {xs : List α} (h : 1 < xs.length) {i : ℕ}
    (hi : i < xs.length)
    (hmax : ∀ j, j < xs.length → j ≠ i → xs.getD j 0 < xs.getD i 0) :
    calibratedAt xs i = 100 := by
  rw [calibratedAt_eq h hi, rankOf_eq_last_of_strict_max hi hmax]
  have hcast : ((xs.length - 1 : ℕ) : α) ≠ 0 := by
    have h1 : 1 ≤ xs.length - 1 := by omega
    exact_mod_cast Nat.pos_iff_ne_zero.1 (by omega)
  rw [div_self hcast, one_mul]
  simpa using @round2_intCast α _ _ 100

theorem calibratedAt_mono {α : Type} [LinearOrderedField α] [FloorRing α]
    {xs : List α} {i j : ℕ} (hi : i < xs.length) (hj : j < xs.length)
    (hv : xs.getD i 0 < xs.getD j 0) :
    calibratedAt xs i ≤ calibratedAt xs j := by
  have hlen : 1 < xs.length := by
    by_contra hc
    push_neg at hc
    have h1 : i = 0 := by omega
    have h2 : j = 0 := by omega
    rw [h1, h2] at hv
    exact lt_irrefl _ hv
  rw [calibratedAt_eq hlen hi, calibratedAt_eq hlen hj]
  apply round2_mono
  have hr := rankOf_strictMono hi hj hv
  have hpos : (0:α) < ((xs.length - 1 : ℕ) : α) := by
    have h1 : 0 < xs.length - 1 := by omega
    exact_mod_cast Nat.cast_pos.2 h1
  have hle : ((rankOf xs i : ℕ) : α) ≤ ((rankOf xs j : ℕ) : α) := by
    exact_mod_cast le_of_lt hr
  apply mul_le_mul_of_nonneg_right _ (by norm_num : (0:α) ≤ 100)
  exact (div_le_div_iff_of_pos_right hpos).2 hle

theorem calibratedValue_eq_countP {α : Type} [LinearOrderedField α]
    [FloorRing α] {xs : List α} (hnd : xs.Nodup) (hl : 1 < xs.length)
    {v : α} (hv : v ∈ xs) :
    calibratedValue xs v =
      round2 ((xs.countP (fun w => decide (w < v)) : α) /
        ((xs.length - 1 : ℕ) : α) * 100) := by
  unfold calibratedValue
  have hidx : xs.indexOf v < xs.length := List.indexOf_lt_length.2 hv
  have hgd : xs.getD (xs.indexOf v) 0 = v := by
    rw [List.getD_eq_getElem _ _ hidx]
    exact List.getElem_indexOf hidx
  rw [calibratedAt_eq hl hidx, rankOf_eq_countP hnd hidx, hgd]

theorem argsort_pair_of_not_le {α : Type} [LinearOrderedField α] {a b : α}
    (h : ¬ idxLe [a, b] 0 1) : argsort [a, b] = [1, 0] := by
  unfold argsort
  show List.insertionSort (idxLe [a, b]) [0, 1] = [1, 0]
  simp only [List.insertionSort, List.orderedInsert]
  rw [if_neg h]

theorem argsort_pair_of_le {α : Type} [LinearOrderedField α] {a b : α}
    (h : idxLe [a, b] 0 1) : argsort [a, b] = [0, 1] := by
  unfold argsort
  show List.insertionSort (idxLe [a, b]) [0, 1] = [0, 1]
  simp only [List.insertionSort, List.orderedInsert]
  rw [if_pos h]

theorem calibrate_pair_of_lt {α : Type} [LinearOrderedField α] [FloorRing α]
    {a b : α} (h : b < a) : calibrate [a, b] = some [100, 0] := by
  have hr : ¬ idxLe [a, b] 0 1 := by
    unfold idxLe
    rintro (hc | ⟨hc, -⟩)
    · simp only [List.getD_cons_zero, List.getD_cons_succ] at hc
      exact absurd hc (not_lt.2 (le_of_lt h))
    · simp only [List.getD_cons_zero, List.getD_cons_succ] at hc
      exact absurd hc (ne_of_gt h)
  have hsort := argsort_pair_of_not_le hr
  have hrank0 : rankOf [a, b] 0 = 1 := by unfold rankOf; rw [hsort]; rfl
  have hrank1 : rankOf [a, b] 1 = 0 := by unfold rankOf; rw [hsort]; rfl
  rw [calibrate_of_one_lt (by norm_num)]
  have hlen : ([a, b] : List α).length = 2 := rfl
  rw [hlen]
  show some [round2 ((rankOf [a, b] 0 : α) / ((2 - 1 : ℕ) : α) * 100),
    round2 ((rankOf [a, b] 1 : α) / ((2 - 1 : ℕ) : α) * 100)] = some [100, 0]
  rw [hrank0, hrank1]
  have e100 : round2 ((100 : α)) = 100 := by simpa using @round2_intCast α _ _ 100
  have e0 : round2 ((0 : α)) = 0 := by simpa using @round2_intCast α _ _ 0
  norm_num [e100, e0]

theorem calibrate_pair_of_eq {α : Type} [LinearOrderedField α] [FloorRing α]
    (a : α) : calibrate [a, a] = some [0, 100] := by
  have hr : idxLe [a, a] 0 1 := by
    unfold idxLe
    exact Or.inr ⟨by simp, by norm_num⟩
  have hsort := argsort_pair_of_le hr
  have hrank0 : rankOf [a, a] 0 = 0 := by unfold rankOf; rw [hsort]; rfl
  have hrank1 : rankOf [a, a] 1 = 1 := by unfold rankOf; rw [hsort]; rfl
  rw [calibrate_of_one_lt (by norm_num)]
  have hlen : ([a, a] : List α).length = 2 := rfl
  rw [hlen]
  show some [round2 ((rankOf [a, a] 0 : α) / ((2 - 1 : ℕ) : α) * 100),
    round2 ((rankOf [a, a] 1 : α) / ((2 - 1 : ℕ) : α) * 100)] = some [0, 100]
  rw [hrank0, hrank1]
  have e100 : round2 ((100 : α)) = 100 := by simpa using @round2_intCast α _ _ 100
  have e0 : round2 ((0 : α)) = 0 := by simpa using @round2_intCast α _ _ 0
  norm_num [e100, e0]

/-! ### Small helpers for concrete rounding values -/

theorem round2_zero {α : Type} [LinearOrderedField α] [FloorRing α] :
    round2 (0 : α) = 0 := by
  simpa using @round2_intCast α _ _ 0

theorem round2_hundred {α : Type} [LinearOrderedField α] [FloorRing α] :
    round2 (100 : α) = 100 := by
  simpa using @round2_intCast α _ _ 100

/-! ### Claim theorems -/

/-- C5: `map_to_score(z) = 100/(1 + e^(−z/2))` is strictly monotone
increasing in `z`, and for every `z`, `map_to_score z + map_to_score (−z) =
100`. -/
theorem C5_logistic_mapping :
    (∀ z₁ z₂ : ℝ, z₁ < z₂ → map_to_score z₁ < map_to_score z₂) ∧
    (∀ z : ℝ, map_to_score z + map_to_score (-z) = 100) := by
  constructor
  · intro z₁ z₂ h
    unfold map_to_score
    have hexp : Real.exp (-z₂ / 2) < Real.exp (-z₁ / 2) :=
      Real.exp_lt_exp.2 (by linarith)
    have h₂ : (0:ℝ) < 1 + Real.exp (-z₂ / 2) := by positivity
    exact div_lt_div_of_pos_left (by norm_num) h₂ (by linarith)
  · intro z
    unfold map_to_score
    have hn : (- -z) = z := neg_neg z
    rw [hn]
    have ha : Real.exp (-z / 2) = (Real.exp (z / 2))⁻¹ := by
      rw [← Real.exp_neg]
      ring_nf
    rw [ha]
    have hpos := Real.exp_pos (z / 2)
    have h1 : (0:ℝ) < 1 + (Real.exp (z / 2))⁻¹ := by positivity
    have h2 : (0:ℝ) < 1 + Real.exp (z / 2) := by positivity
    field_simp
    ring

/-- Witness for C5 at concrete points `z₁ = 0 < z₂ = 1` and `z = 2`. -/
theorem C5_logistic_mapping_witness :
    map_to_score 0 < map_to_score 1 ∧
    map_to_score 2 + map_to_score (-2) = 100 :=
  ⟨C5_logistic_mapping.1 0 1 (by norm_num), C5_logistic_mapping.2 2⟩

/-- C6: `risk_label` is the descending-threshold step function with
inclusive boundaries at 30/60/80: ≥80 High, 60≤s<80 Elevated, 30≤s<60
Moderate, s<30 Low; in particular 29.9→Low, 30→Moderate, 79.9→Elevated,
80→High. -/
theorem C6_label_assignment :
    (∀ s : ℚ, 80 ≤ s → risk_label s = "High") ∧
    (∀ s : ℚ, 60 ≤ s → s < 80 → risk_label s = "Elevated") ∧
    (∀ s : ℚ, 30 ≤ s → s < 60 → risk_label s = "Moderate") ∧
    (∀ s : ℚ, s < 30 → risk_label s = "Low") ∧
    risk_label (29.9 : ℚ) = "Low" ∧ risk_label (30 : ℚ) = "Moderate" ∧
    risk_label (79.9 : ℚ) = "Elevated" ∧ risk_label (80 : ℚ) = "High" := by
  refine ⟨?_, ?_, ?_, ?_, ?_, ?_, ?_, ?_⟩
  · intro s h
    unfold risk_label LABEL_THRESHOLDS
    simp only [labelScan]
    rw [if_pos h]
  · intro s h1 h2
    unfold risk_label LABEL_THRESHOLDS
    simp only [labelScan]
    rw [if_neg (by linarith), if_pos h1]
  · intro s h1 h2
    unfold risk_label LABEL_THRESHOLDS
    simp only [labelScan]
    rw [if_neg (by linarith), if_neg (by linarith), if_pos h1]
  · intro s h
    unfold risk_label LABEL_THRESHOLDS
    simp only [labelScan]
    rw [if_neg (by linarith), if_neg (by linarith), if_neg (by linarith)]
    by_cases h0 : (0:ℚ) ≤ s
    · rw [if_pos h0]
    · rw [if_neg h0]
  · norm_num [risk_label, labelScan, LABEL_THRESHOLDS]
  · norm_num [risk_label, labelScan, LABEL_THRESHOLDS]
  · norm_num [risk_label, labelScan, LABEL_THRESHOLDS]
  · norm_num [risk_label, labelScan, LABEL_THRESHOLDS]

/-- Witness for C6 at concrete scores 85, 65, 45, 12. -/
theorem C6_label_assignment_witness :
    risk_label (85 : ℚ) = "High" ∧ risk_label (65 : ℚ) = "Elevated" ∧
    risk_label (45 : ℚ) = "Moderate" ∧ risk_label (12 : ℚ) = "Low" :=
  ⟨C6_label_assignment.1 85 (by norm_num),
   C6_label_assignment.2.1 65 (by norm_num) (by norm_num),
   C6_label_assignment.2.2.1 45 (by norm_num) (by norm_num),
   C6_label_assignment.2.2.2.1 12 (by norm_num)⟩

/-- C2: in the global calibration (`compute_composite`, and the identical
block in `merge_results`), for a population with more than one provider the
provider with the strictly smallest `r_raw` gets calibrated score 0, the one
with the strictly largest gets 100, and a strictly larger `r_raw` never gets
a smaller calibrated score; for a single provider the score is
`round2(r_raw / max(r_raw, 1) · 100)`. -/
theorem C2_global_calibration :
    (∀ (xs : List ℚ) (i : ℕ), 1 < xs.length → i < xs.length →
      (∀ j, j < xs.length → j ≠ i → xs.getD i 0 < xs.getD j 0) →
      calibratedAt xs i = 0) ∧
    (∀ (xs : List ℚ) (i : ℕ), 1 < xs.length → i < xs.length →
      (∀ j, j < xs.length → j ≠ i → xs.getD j 0 < xs.getD i 0) →
      calibratedAt xs i = 100) ∧
    (∀ (xs : List ℚ) (i j : ℕ), i < xs.length → j < xs.length →
      xs.getD i 0 < xs.getD j 0 → calibratedAt xs i ≤ calibratedAt xs j) ∧
    (∀ x : ℚ, calibrate [x] = some [round2 (x / max x 1 * 100)]) := by
  refine ⟨?_, ?_, ?_, ?_⟩
  · intro xs i hlen hi hmin
    exact calibratedAt_of_strict_min hlen hi hmin
  · intro xs i hlen hi hmax
    exact calibratedAt_of_strict_max hlen hi hmax
  · intro xs i j hi hj hv
    exact calibratedAt_mono hi hj hv
  · intro x
    rfl

/-- Witness for C2 on the population `r_raw = [10, 30, 20]` (minimum at
position 0, maximum at position 1) and on the singleton `[7]`. -/
theorem C2_global_calibration_witness :
    calibratedAt ([10, 30, 20] : List ℚ) 0 = 0 ∧
    calibratedAt ([10, 30, 20] : List ℚ) 1 = 100 ∧
    calibratedAt ([10, 30, 20] : List ℚ) 0 ≤
      calibratedAt ([10, 30, 20] : List ℚ) 2 ∧
    calibrate ([7] : List ℚ) = some [round2 (7 / max 7 1 * 100)] := by
  refine ⟨?_, ?_, ?_, C2_global_calibration.2.2.2 7⟩
  · refine C2_global_calibration.1 [10, 30, 20] 0 (by norm_num) (by norm_num) ?_
    intro j hj hne
    have hj3 : j < 3 := by simpa using hj
    interval_cases j
    · exact absurd rfl hne
    · norm_num
    · norm_num
  · refine C2_global_calibration.2.1 [10, 30, 20] 1 (by norm_num) (by norm_num) ?_
    intro j hj hne
    have hj3 : j < 3 := by simpa using hj
    interval_cases j
    · norm_num
    · exact absurd rfl hne
    · norm_num
  · refine C2_global_calibration.2.2.1 [10, 30, 20] 0 2 (by norm_num)
      (by norm_num) (by norm_num)

/-- C10 (implicit): ranks come from array position under `argsort`, not from
tied ranks, so two providers with exactly equal `r_raw` can receive
different calibrated scores and different labels: on two providers with
identical components (both `r_raw = 30`), `compute_composite` returns
calibrated 0 / "Low" for one and 100 / "High" for the other. -/
theorem C10_ties_get_distinct_scores :
    compute_composite ([⟨"A", 100, 0, 0, 0, 0⟩, ⟨"B", 100, 0, 0, 0, 0⟩] :
        List (CompRow ℚ)) =
      some [⟨"A", 30, 0, "Low"⟩, ⟨"B", 30, 100, "High"⟩] := by
  have hrr : ([⟨"A", 100, 0, 0, 0, 0⟩, ⟨"B", 100, 0, 0, 0, 0⟩] :
      List (CompRow ℚ)).map r_rawOf = [30, 30] := by
    norm_num [r_rawOf]
  unfold compute_composite
  simp only [hrr]
  rw [calibrate_pair_of_eq (30 : ℚ)]
  norm_num [r_rawOf, risk_label, labelScan, LABEL_THRESHOLDS]

/-- C4: `robust_zscore` always lands in `[−5, 5]` on non-empty peer values;
a target at the peer median scores 0; with degenerate MAD (< 1e-9) the
result is `clip((target − median)/1e-9, −5, 5)`, so any deviation of
magnitude at least 5e-9 saturates to ±5. -/
theorem C4_robust_zscore (values : List ℚ) (target : ℚ) (hne : values ≠ []) :
    (-5 ≤ robust_zscore values target ∧ robust_zscore values target ≤ 5) ∧
    (target = npMedian values → robust_zscore values target = 0) ∧
    (npMedian (values.map fun v => |v - npMedian values|) < 1e-9 →
      robust_zscore values target =
        clip ((target - npMedian values) / 1e-9) (-5) 5) ∧
    (npMedian (values.map fun v => |v - npMedian values|) < 1e-9 →
      5e-9 ≤ target - npMedian values → robust_zscore values target = 5) ∧
    (npMedian (values.map fun v => |v - npMedian values|) < 1e-9 →
      target - npMedian values ≤ -(5e-9) → robust_zscore values target = -5) := by
  have hlen : ¬ values.length = 0 := by
    simpa [List.length_eq_zero] using hne
  have hrz : robust_zscore values target =
      (if npMedian (values.map fun v => |v - npMedian values|) < 1e-9 then
        clip ((target - npMedian values) / 1e-9) (-5) 5
      else clip ((target - npMedian values) /
        (MAD_SCALE * npMedian (values.map fun v => |v - npMedian values|)))
        (-5) 5) := by
    unfold robust_zscore
    rw [if_neg hlen]
  have hb : ∀ x : ℚ, -5 ≤ clip x (-5) 5 ∧ clip x (-5) 5 ≤ 5 := by
    intro x
    unfold clip
    exact ⟨le_min (le_max_right _ _) (by norm_num), min_le_right _ _⟩
  refine ⟨?_, ?_, ?_, ?_, ?_⟩
  · rw [hrz]
    split_ifs <;> exact hb _
  · intro h
    rw [hrz, h]
    split_ifs <;> norm_num [clip]
  · intro hdeg
    rw [hrz, if_pos hdeg]
  · intro hdeg h5
    rw [hrz, if_pos hdeg]
    have hx : (5:ℚ) ≤ (target - npMedian values) / 1e-9 := by
      rw [le_div_iff₀ (by norm_num : (0:ℚ) < 1e-9)]
      norm_num at h5 ⊢
      linarith
    unfold clip
    rw [max_eq_left (by linarith : (-5:ℚ) ≤ (target - npMedian values) / 1e-9),
      min_eq_right hx]
  · intro hdeg h5
    rw [hrz, if_pos hdeg]
    have hx : (target - npMedian values) / 1e-9 ≤ (-5:ℚ) := by
      rw [div_le_iff₀ (by norm_num : (0:ℚ) < 1e-9)]
      norm_num at h5 ⊢
      linarith
    unfold clip
    rw [max_eq_right hx]
    exact min_eq_left (by norm_num)

/-- Witness for C4: a regular peer group `[1,2,3]` and a degenerate one
`[5,5,5]` (MAD = 0), where a deviation of 1 saturates to ±5. -/
theorem C4_robust_zscore_witness :
    (-5 ≤ robust_zscore [1, 2, 3] 10 ∧ robust_zscore [1, 2, 3] 10 ≤ 5) ∧
    robust_zscore [1, 2, 3] 2 = 0 ∧
    robust_zscore [5, 5, 5] 6 =
      clip ((6 - npMedian [5, 5, 5]) / 1e-9) (-5) 5 ∧
    robust_zscore [5, 5, 5] 6 = 5 ∧
    robust_zscore [5, 5, 5] 4 = -5 := by
  refine ⟨(C4_robust_zscore [1, 2, 3] 10 (by simp)).1,
    (C4_robust_zscore [1, 2, 3] 2 (by simp)).2.1 ?_,
    (C4_robust_zscore [5, 5, 5] 6 (by simp)).2.2.1 ?_,
    (C4_robust_zscore [5, 5, 5] 6 (by simp)).2.2.2.1 ?_ ?_,
    (C4_robust_zscore [5, 5, 5] 4 (by simp)).2.2.2.2 ?_ ?_⟩ <;>
  norm_num [npMedian, List.insertionSort, List.orderedInsert]

/-- C9 counterexample: `compute_composite` on an empty population does not
fall back to a default — the calibration block evaluates
`r_raw_arr.max()` on a zero-size array, which raises `ValueError`
(modelled as `none`). -/
theorem C9_counterexample_empty_composite_raises :
    compute_composite ([] : List (CompRow ℚ)) = none := rfl

/-- C9 (amended): `compute_peer_metrics`, `compute_billing_score` and
`compute_trajectory_score` return empty results on empty input, an empty
peer group yields robust z-score 0, and a batch with no payment rows
produces no rows — none of them raise; `compute_composite`, however, raises
on an empty population (numpy `max` of an empty array), and is only guarded
by its callers' early exit on empty payments. -/
theorem C9_empty_input_defaults :
    compute_peer_metrics [] = [] ∧
    compute_billing_score [] = [] ∧
    compute_trajectory_score [] = [] ∧
    (∀ t : ℚ, robust_zscore [] t = 0) ∧
    compute_composite ([] : List (CompRow ℚ)) = none ∧
    (∀ (b : List String) (g : Except Unit (List GraphRecord)),
      process_npi_batch b [] [] [] g = []) :=
  ⟨rfl, rfl, rfl, fun _ => rfl, rfl, fun _ _ => rfl⟩

/-! ### Evaluation helpers for `compute_program_concentration` -/

theorem listMax_single {α : Type} [LinearOrder α] [Zero α] (a : α) :
    listMax [a] = a := by
  simp [listMax]

theorem listMax_pair {α : Type} [LinearOrder α] [Zero α] (a b : α) :
    listMax [a, b] = max a b := by
  simp only [listMax, List.foldr_cons, List.foldr_nil, List.headD_cons]
  rw [max_comm b a, ← max_assoc, max_self]

theorem conc_single_eval (pa : ℚ) :
    compute_program_concentration ([⟨"1", 2020, "A", pa, 0, 0, "T", "CA"⟩] :
        List (PaymentRow ℚ)) =
      [("1", round2 (if 1/2 < pa / max pa 1
        then min (200 * (pa / max pa 1 - 1/2)) 100 else 0))] := by
  have h1 : progTotal ([⟨"1", 2020, "A", pa, 0, 0, "T", "CA"⟩] :
      List (PaymentRow ℚ)) "1" "A" = pa := by
    simp [progTotal]
  have h3 : grandTotal ([⟨"1", 2020, "A", pa, 0, 0, "T", "CA"⟩] :
      List (PaymentRow ℚ)) "1" = pa := by
    simp [grandTotal]
  have h4 : progsOf ([⟨"1", 2020, "A", pa, 0, 0, "T", "CA"⟩] :
      List (PaymentRow ℚ)) "1" = ["A"] := by
    simp [progsOf]
    rfl
  have h5 : maxShare ([⟨"1", 2020, "A", pa, 0, 0, "T", "CA"⟩] :
      List (PaymentRow ℚ)) "1" = pa / max pa 1 := by
    rw [maxShare, h4]
    simp only [List.map_cons, List.map_nil]
    rw [h1, h3, listMax_single]
  have h6 : concScore ([⟨"1", 2020, "A", pa, 0, 0, "T", "CA"⟩] :
      List (PaymentRow ℚ)) "1" =
      round2 (if 1/2 < pa / max pa 1
        then min (200 * (pa / max pa 1 - 1/2)) 100 else 0) := by
    rw [concScore, h5]
  have h0 : (([⟨"1", 2020, "A", pa, 0, 0, "T", "CA"⟩] :
      List (PaymentRow ℚ)).filter
        fun p => decide (listMax (([⟨"1", 2020, "A", pa, 0, 0, "T", "CA"⟩] :
          List (PaymentRow ℚ)).map fun q => q.year) - 2 ≤ p.year)) =
      ([⟨"1", 2020, "A", pa, 0, 0, "T", "CA"⟩] : List (PaymentRow ℚ)) := by
    simp [listMax, max_def]
  simp only [compute_program_concentration]
  rw [h0]
  simp only [List.map_cons, List.map_nil]
  rw [show firstKeys (["1"] : List String) = ["1"] from rfl]
  simp only [List.map_cons, List.map_nil, List.isEmpty_cons,
    Bool.false_eq_true, if_false]
  rw [h6]

theorem conc_pair_eval (pa pb : ℚ) :
    compute_program_concentration ([⟨"1", 2020, "A", pa, 0, 0, "T", "CA"⟩,
        ⟨"1", 2020, "B", pb, 0, 0, "T", "CA"⟩] : List (PaymentRow ℚ)) =
      [("1", round2 (if 1/2 < max (pa / max (pa + pb) 1) (pb / max (pa + pb) 1)
        then min (200 * (max (pa / max (pa + pb) 1) (pb / max (pa + pb) 1) - 1/2))
          100
        else 0))] := by
  have h1 : progTotal ([⟨"1", 2020, "A", pa, 0, 0, "T", "CA"⟩,
      ⟨"1", 2020, "B", pb, 0, 0, "T", "CA"⟩] : List (PaymentRow ℚ)) "1" "A" = pa := by
    simp [progTotal]
  have h2 : progTotal ([⟨"1", 2020, "A", pa, 0, 0, "T", "CA"⟩,
      ⟨"1", 2020, "B", pb, 0, 0, "T", "CA"⟩] : List (PaymentRow ℚ)) "1" "B" = pb := by
    simp [progTotal]
  have h3 : grandTotal ([⟨"1", 2020, "A", pa, 0, 0, "T", "CA"⟩,
      ⟨"1", 2020, "B", pb, 0, 0, "T", "CA"⟩] : List (PaymentRow ℚ)) "1" = pa + pb := by
    simp [grandTotal]
  have h4 : progsOf ([⟨"1", 2020, "A", pa, 0, 0, "T", "CA"⟩,
      ⟨"1", 2020, "B", pb, 0, 0, "T", "CA"⟩] : List (PaymentRow ℚ)) "1" =
      ["A", "B"] := by
    simp [progsOf]
    rfl
  have h5 : maxShare ([⟨"1", 2020, "A", pa, 0, 0, "T", "CA"⟩,
      ⟨"1", 2020, "B", pb, 0, 0, "T", "CA"⟩] : List (PaymentRow ℚ)) "1" =
      max (pa / max (pa + pb) 1) (pb / max (pa + pb) 1) := by
    rw [maxShare, h4]
    simp only [List.map_cons, List.map_nil]
    rw [h1, h2, h3, listMax_pair]
  have h6 : concScore ([⟨"1", 2020, "A", pa, 0, 0, "T", "CA"⟩,
      ⟨"1", 2020, "B", pb, 0, 0, "T", "CA"⟩] : List (PaymentRow ℚ)) "1" =
      round2 (if 1/2 < max (pa / max (pa + pb) 1) (pb / max (pa + pb) 1)
        then min (200 * (max (pa / max (pa + pb) 1) (pb / max (pa + pb) 1) - 1/2))
          100
        else 0) := by
    rw [concScore, h5]
  have h0 : (([⟨"1", 2020, "A", pa, 0, 0, "T", "CA"⟩,
      ⟨"1", 2020, "B", pb, 0, 0, "T", "CA"⟩] : List (PaymentRow ℚ)).filter
        fun p => decide (listMax (([⟨"1", 2020, "A", pa, 0, 0, "T", "CA"⟩,
          ⟨"1", 2020, "B", pb, 0, 0, "T", "CA"⟩] : List (PaymentRow ℚ)).map
            fun q => q.year) - 2 ≤ p.year)) =
      ([⟨"1", 2020, "A", pa, 0, 0, "T", "CA"⟩,
        ⟨"1", 2020, "B", pb, 0, 0, "T", "CA"⟩] : List (PaymentRow ℚ)) := by
    simp [listMax, max_def]
  simp only [compute_program_concentration]
  rw [h0]
  simp only [List.map_cons, List.map_nil]
  rw [show firstKeys (["1", "1"] : List String) = ["1"] from rfl]
  simp only [List.map_cons, List.map_nil, List.isEmpty_cons,
    Bool.false_eq_true, if_false]
  rw [h6]

/-- C7 counterexample: with a single program totalling 0.5, the program's
true share of total payments is 1 (> 0.5), so the claim demands
`min(100, 200·(1−0.5)) = 100`; the code divides by
`grand_total.clip(lower_bound=1) = 1` instead, gets "share" 0.5, and
returns 0. -/
theorem C7_counterexample_small_totals :
    compute_program_concentration ([⟨"1", 2020, "A", 1/2, 0, 0, "T", "CA"⟩] :
        List (PaymentRow ℚ)) = [("1", 0)] ∧
    progTotal ([⟨"1", 2020, "A", 1/2, 0, 0, "T", "CA"⟩] :
        List (PaymentRow ℚ)) "1" "A" /
      grandTotal ([⟨"1", 2020, "A", 1/2, 0, 0, "T", "CA"⟩] :
        List (PaymentRow ℚ)) "1" = 1 ∧
    min (200 * ((1:ℚ) - 1/2)) 100 = 100 := by
  refine ⟨?_, ?_, by norm_num⟩
  · rw [conc_single_eval (1/2)]
    norm_num [max_def, min_def, round2, roundHalfEven]
  · norm_num [progTotal, grandTotal]

/-- C7 (amended): `compute_program_concentration` scores the maximum program
share of the frame's most recent 3 years of payments, with the share
denominator clipped below at 1 (`grand_total.clip(lower_bound=1)`): whenever
the provider's recent total is at least 1 the clip is inert and the claimed
behaviour holds exactly — share 1.0 → 100, share ≤ 0.5 → 0, share 0.75 →
50, share 0.6 → 20; for totals below 1 the computed "share" is payments
divided by 1, as in the counterexample. -/
theorem C7_concentration :
    (∀ (rows : List (PaymentRow ℚ)) (npi : String),
      1 ≤ grandTotal rows npi →
      concScore rows npi =
        round2 (if 1/2 < listMax ((progsOf rows npi).map fun pr =>
            progTotal rows npi pr / grandTotal rows npi)
          then min (200 * (listMax ((progsOf rows npi).map fun pr =>
            progTotal rows npi pr / grandTotal rows npi) - 1/2)) 100
          else 0)) ∧
    compute_program_concentration ([⟨"1", 2020, "A", 4, 0, 0, "T", "CA"⟩] :
      List (PaymentRow ℚ)) = [("1", 100)] ∧
    compute_program_concentration ([⟨"1", 2020, "A", 3, 0, 0, "T", "CA"⟩,
      ⟨"1", 2020, "B", 1, 0, 0, "T", "CA"⟩] :
      List (PaymentRow ℚ)) = [("1", 50)] ∧
    compute_program_concentration ([⟨"1", 2020, "A", 3, 0, 0, "T", "CA"⟩,
      ⟨"1", 2020, "B", 2, 0, 0, "T", "CA"⟩] :
      List (PaymentRow ℚ)) = [("1", 20)] ∧
    compute_program_concentration ([⟨"1", 2020, "A", 1, 0, 0, "T", "CA"⟩,
      ⟨"1", 2020, "B", 1, 0, 0, "T", "CA"⟩] :
      List (PaymentRow ℚ)) = [("1", 0)] := by
  refine ⟨?_, ?_, ?_, ?_, ?_⟩
  · intro rows npi h
    have hm : max (grandTotal rows npi) 1 = grandTotal rows npi :=
      max_eq_left h
    unfold concScore maxShare
    rw [hm]
  · rw [conc_single_eval 4]
    norm_num [max_def, min_def, round2, roundHalfEven]
  · rw [conc_pair_eval 3 1]
    norm_num [max_def, min_def, round2, roundHalfEven]
  · rw [conc_pair_eval 3 2]
    norm_num [max_def, min_def, round2, roundHalfEven]
  · rw [conc_pair_eval 1 1]
    norm_num [max_def, min_def, round2, roundHalfEven]

/-- Witness for C7's general clause at the share-0.75 example
(recent total 4 ≥ 1). -/
theorem C7_concentration_witness :
    (1:ℚ) ≤ grandTotal ([⟨"1", 2020, "A", 3, 0, 0, "T", "CA"⟩,
      ⟨"1", 2020, "B", 1, 0, 0, "T", "CA"⟩] : List (PaymentRow ℚ)) "1" ∧
    concScore ([⟨"1", 2020, "A", 3, 0, 0, "T", "CA"⟩,
      ⟨"1", 2020, "B", 1, 0, 0, "T", "CA"⟩] : List (PaymentRow ℚ)) "1" =
      round2 (if 1/2 < listMax ((progsOf ([⟨"1", 2020, "A", 3, 0, 0, "T", "CA"⟩,
          ⟨"1", 2020, "B", 1, 0, 0, "T", "CA"⟩] : List (PaymentRow ℚ)) "1").map
            fun pr => progTotal ([⟨"1", 2020, "A", 3, 0, 0, "T", "CA"⟩,
          ⟨"1", 2020, "B", 1, 0, 0, "T", "CA"⟩] : List (PaymentRow ℚ)) "1" pr /
            grandTotal ([⟨"1", 2020, "A", 3, 0, 0, "T", "CA"⟩,
          ⟨"1", 2020, "B", 1, 0, 0, "T", "CA"⟩] : List (PaymentRow ℚ)) "1")
        then min (200 * (listMax ((progsOf ([⟨"1", 2020, "A", 3, 0, 0, "T", "CA"⟩,
          ⟨"1", 2020, "B", 1, 0, 0, "T", "CA"⟩] : List (PaymentRow ℚ)) "1").map
            fun pr => progTotal ([⟨"1", 2020, "A", 3, 0, 0, "T", "CA"⟩,
          ⟨"1", 2020, "B", 1, 0, 0, "T", "CA"⟩] : List (PaymentRow ℚ)) "1" pr /
            grandTotal ([⟨"1", 2020, "A", 3, 0, 0, "T", "CA"⟩,
          ⟨"1", 2020, "B", 1, 0, 0, "T", "CA"⟩] : List (PaymentRow ℚ)) "1") - 1/2))
          100
        else 0) := by
  constructor
  · norm_num [grandTotal]
  · exact C7_concentration.1 _ "1" (by norm_num [grandTotal])

/-! ### Lemmas for exclusion proximity -/

theorem mem_activeExclusionNpis {excl : List ExclusionRow} {npi : String} :
    npi ∈ activeExclusionNpis excl ↔
      ∃ e ∈ excl, e.npi = npi ∧ e.reinstated.getD false = false := by
  unfold activeExclusionNpis
  simp only [List.mem_map, List.mem_filter, beq_iff_eq]
  constructor
  · rintro ⟨e, ⟨he, hr⟩, hn⟩
    exact ⟨e, he, hn, hr⟩
  · rintro ⟨e, he, hn, hr⟩
    exact ⟨e, ⟨he, hr⟩, hn⟩

theorem exclusion_proximity_lookup {α : Type} [LinearOrderedField α]
    (excl : List ExclusionRow) (prov : List ProviderRow)
    (chain : List (String × ℕ)) (owner : List String) (npi : String)
    (h : npi ∈ prov.map (fun p => p.npi)) :
    (compute_exclusion_proximity excl prov chain owner :
        List (String × α)).lookup npi =
      some (if npi ∈ activeExclusionNpis excl then 100
        else if npi ∈ owner then 80
        else if 0 < (chain.lookup npi).getD 0 then 50 else 0) := by
  induction prov with
  | nil => simp at h
  | cons p ps ih =>
    simp only [compute_exclusion_proximity, List.map_cons] at ih ⊢
    by_cases hp : npi = p.npi
    · simp only [List.lookup_cons, hp, beq_self_eq_true]
    · simp only [List.lookup_cons,
        show (npi == p.npi) = false from by simp [hp]]
      apply ih
      rcases List.mem_cons.1 h with hc | hc
      · exact absurd hc hp
      · exact hc

/-- C8: `compute_exclusion_proximity` assigns each provider of the providers
frame 100 if it has an active direct exclusion (an exclusions row with
`reinstated` false after null-filling), else 80 if its owning entity is
directly excluded (`owner_excluded` set), else 50 if its ownership chain
contains at least one excluded provider (`chain_excluded` count > 0), else
0. -/
theorem C8_exclusion_proximity :
    ∀ (excl : List ExclusionRow) (prov : List ProviderRow)
      (chain : List (String × ℕ)) (owner : List String) (npi : String),
      npi ∈ prov.map (fun p => p.npi) →
      ((∃ e ∈ excl, e.npi = npi ∧ e.reinstated.getD false = false) →
        (compute_exclusion_proximity excl prov chain owner :
          List (String × ℚ)).lookup npi = some 100) ∧
      (¬ (∃ e ∈ excl, e.npi = npi ∧ e.reinstated.getD false = false) →
        npi ∈ owner →
        (compute_exclusion_proximity excl prov chain owner :
          List (String × ℚ)).lookup npi = some 80) ∧
      (¬ (∃ e ∈ excl, e.npi = npi ∧ e.reinstated.getD false = false) →
        npi ∉ owner → 0 < (chain.lookup npi).getD 0 →
        (compute_exclusion_proximity excl prov chain owner :
          List (String × ℚ)).lookup npi = some 50) ∧
      (¬ (∃ e ∈ excl, e.npi = npi ∧ e.reinstated.getD false = false) →
        npi ∉ owner → (chain.lookup npi).getD 0 = 0 →
        (compute_exclusion_proximity excl prov chain owner :
          List (String × ℚ)).lookup npi = some 0) := by
  intro excl prov chain owner npi h
  have hl := @exclusion_proximity_lookup ℚ _ excl prov chain owner npi h
  refine ⟨?_, ?_, ?_, ?_⟩
  · intro hex
    rw [hl, if_pos (mem_activeExclusionNpis.2 hex)]
  · intro hnex hown
    rw [hl, if_neg (fun hmem => hnex (mem_activeExclusionNpis.1 hmem)),
      if_pos hown]
  · intro hnex hnown hchain
    rw [hl, if_neg (fun hmem => hnex (mem_activeExclusionNpis.1 hmem)),
      if_neg hnown, if_pos hchain]
  · intro hnex hnown hchain
    rw [hl, if_neg (fun hmem => hnex (mem_activeExclusionNpis.1 hmem)),
      if_neg hnown, if_neg (by omega : ¬ 0 < (chain.lookup npi).getD 0)]

/-- Witness for C8: a provider with an active direct exclusion scores 100. -/
theorem C8_exclusion_proximity_witness :
    ("1" ∈ ([⟨"1", "T", "CA", false, "X"⟩] : List ProviderRow).map
      (fun p => p.npi)) ∧
    (compute_exclusion_proximity [⟨"1", "2020-01-01", some false⟩]
      [⟨"1", "T", "CA", false, "X"⟩] [] [] :
        List (String × ℚ)).lookup "1" = some 100 := by
  have hm : "1" ∈ ([⟨"1", "T", "CA", false, "X"⟩] : List ProviderRow).map
      (fun p => p.npi) := by simp
  exact ⟨hm, (C8_exclusion_proximity _ _ _ _ "1" hm).1
    ⟨⟨"1", "2020-01-01", some false⟩, by simp, rfl, rfl⟩⟩

/-- C1 (amended): the merge-stage global calibration is a function of a
provider's own `r_raw` and the multiset of all `r_raw` values — for
pairwise-distinct values, any permutation of the concatenated population
(in particular any regrouping of batch chunks) yields the same calibrated
score per value; full batch/merge equivalence as claimed fails, because
`r_raw` itself is batch-local (see the counterexample). -/
theorem C1_calibration_permutation_invariant :
    ∀ xs ys : List ℚ, xs.Perm ys → xs.Nodup → ∀ v ∈ xs,
      calibratedValue xs v = calibratedValue ys v := by
  intro xs ys hperm hnd v hv
  by_cases hlen : 1 < xs.length
  · have hndy : ys.Nodup := (hperm.nodup_iff).1 hnd
    have hleny : 1 < ys.length := by
      rw [← hperm.length_eq]
      exact hlen
    have hvy : v ∈ ys := hperm.mem_iff.1 hv
    rw [calibratedValue_eq_countP hnd hlen hv,
      calibratedValue_eq_countP hndy hleny hvy,
      hperm.countP_eq, hperm.length_eq]
  · have h0 : xs.length ≠ 0 := by
      have := List.ne_nil_of_mem hv
      simpa [List.length_eq_zero] using this
    have h1 : xs.length = 1 := by omega
    obtain ⟨a, ha⟩ := List.length_eq_one.1 h1
    have hva : v = a := by
      rw [ha] at hv
      simpa using hv
    have hxs : xs = [v] := by rw [ha, hva]
    have hys : ys = [v] := List.perm_singleton.1 (hxs ▸ hperm).symm
    rw [hxs, hys]

/-- Witness for C1's amended statement: `[1,2,3]` against its permutation
`[3,1,2]` at the value 2. -/
theorem C1_calibration_permutation_invariant_witness :
    ([1, 2, 3] : List ℚ).Perm [3, 1, 2] ∧ ([1, 2, 3] : List ℚ).Nodup ∧
    (2:ℚ) ∈ ([1, 2, 3] : List ℚ) ∧
    calibratedValue ([1, 2, 3] : List ℚ) 2 =
      calibratedValue ([3, 1, 2] : List ℚ) 2 := by
  have hp : ([1, 2, 3] : List ℚ).Perm [3, 1, 2] := by
    have h1 : ([3, 1, 2] : List ℚ).Perm [1, 3, 2] := List.Perm.swap 1 3 [2]
    have h2 : ([3, 2] : List ℚ).Perm [2, 3] := List.Perm.swap 2 3 []
    have h3 : ([1, 3, 2] : List ℚ).Perm [1, 2, 3] := h2.cons 1
    exact (h1.trans h3).symm
  have hnd : ([1, 2, 3] : List ℚ).Nodup := by norm_num
  have hm : (2:ℚ) ∈ ([1, 2, 3] : List ℚ) := by norm_num
  exact ⟨hp, hnd, hm,
    C1_calibration_permutation_invariant [1, 2, 3] [3, 1, 2] hp hnd 2 hm⟩

/-! ### Lemmas for the graph-failure claim -/

theorem map_eq_replicate_of_forall {β γ : Type} {l : List β} {f : β → γ}
    {c : γ} (h : ∀ x ∈ l, f x = c) :
    l.map f = List.replicate l.length c := by
  induction l with
  | nil => rfl
  | cons x xs ih =>
    simp only [List.map_cons, List.length_cons, List.replicate_succ]
    rw [h x (List.mem_cons_self x xs),
      ih (fun y hy => h y (List.mem_cons_of_mem x hy))]

theorem find_zeros_fields {l : List String} {s : String} {r : OwnershipResult}
    (h : ((l.map fun n => (⟨n, 0, 0, false⟩ : OwnershipResult)).find?
      (fun x => x.npi == s)) = some r) :
    r.ownership_chain_risk = 0 ∧ r.chain_excluded_count = 0 := by
  have hm := List.mem_of_find?_eq_some h
  obtain ⟨n, hn, he⟩ := List.mem_map.1 hm
  rw [← he]
  exact ⟨rfl, rfl⟩

/-- C3: if the batched graph query fails (`Except.error`, the `except`
branch of lines 311-318), the batch still completes and every emitted row
carries `ownership_chain_risk = 0` and `chain_excluded_count = 0`; moreover
the per-NPI dict maps every provider of the batch to chain count 0, and the
`owner_excluded` set is empty (no provider is marked owner-excluded). -/
theorem C3_graph_failure_degrades_to_zero :
    ∀ (npi_batch : List String) (payments_all : List (PaymentRow ℝ))
      (providers_all : List ProviderRow) (exclusions_all : List ExclusionRow)
      (e : Unit),
      ((process_npi_batch npi_batch payments_all providers_all exclusions_all
          (Except.error e)).map fun r =>
        (r.ownership_chain_risk, r.chain_excluded_count)) =
        List.replicate (process_npi_batch npi_batch payments_all providers_all
          exclusions_all (Except.error e)).length ((0:ℝ), (0:ℝ)) ∧
      chainCountsOf (neo4jResults npi_batch (Except.error e)) =
        npi_batch.map (fun n => (n, 0)) ∧
      ownerExcludedSetOf (neo4jResults npi_batch (Except.error e)) = [] := by
  intro batch pay prov excl e
  refine ⟨?_, ?_, ?_⟩
  · simp only [process_npi_batch]
    split
    · rfl
    · unfold assembleScores neo4jResults
      rw [List.map_map, List.length_map]
      apply map_eq_replicate_of_forall
      intro b _
      simp only [Function.comp_apply]
      rcases hfind : ((batch.map fun n =>
          (⟨n, 0, 0, false⟩ : OwnershipResult)).find?
            (fun x => x.npi == b.1)) with _ | r
      · simp [hfind]
      · obtain ⟨h1, h2⟩ := find_zeros_fields hfind
        simp [hfind, h1, h2]
  · unfold chainCountsOf neo4jResults
    rw [List.map_map]
    rfl
  · unfold ownerExcludedSetOf neo4jResults
    rw [show ((batch.map fun n =>
        (⟨n, 0, 0, false⟩ : OwnershipResult)).filter
          (fun r => r.owner_excluded)) = [] from
      List.filter_eq_nil_iff.2 (by
        intro a ha
        obtain ⟨n, _, he⟩ := List.mem_map.1 ha
        rw [← he]
        simp)]
    rfl

/-! ### Evaluation of the example population, batched two ways -/

/-- Single-batch run of the example population: provider "1" gets
`r_raw = 50·0.30 + 100·0.10 = 25` (its 2023 row is inside the batch's
3-year concentration window), provider "2" gets `r_raw = 15` (its 2020 row
falls outside the window set by provider "1"'s 2023 row, so its
concentration score is 0). -/
theorem exSingleRun_eval : exSingleRun =
    [⟨"1", 25, "Pending", 25, 50, 0, 0, 0, 100, 0⟩,
     ⟨"2", 15, "Pending", 15, 50, 0, 0, 0, 0, 0⟩] := by
  have hpm : compute_peer_metrics exPayments =
      [⟨"1", 2023, "TAXA", "CA", 0, 0, 0, 10, 1⟩,
       ⟨"2", 2020, "TAXB", "CA", 0, 0, 0, 10, 1⟩] := by
    simp only [compute_peer_metrics, aggregateNpiYear, exPayments, filterP,
      primaryStats, fallbackStats, chosenStats, mkStats, PEER_MIN_CLAIMS, EPSILON]
    norm_num [firstKeys, firstKeysAux, List.lookup]
    exact ⟨rfl, rfl⟩
  have hbill : compute_billing_score
      [(⟨"1", 2023, "TAXA", "CA", 0, 0, 0, 10, 1⟩ : PMRow),
       ⟨"2", 2020, "TAXB", "CA", 0, 0, 0, 10, 1⟩] =
      [("1", (50 : ℝ)), ("2", 50)] := by
    simp only [compute_billing_score, listMax, ALPHA]
    simp [firstKeys, firstKeysAux]
    norm_num [show ((2023 - 2023 : ℤ)).toNat = 0 from rfl,
      show ((2023 - 2020 : ℤ)).toNat = 3 from rfl, max_def, Real.exp_zero,
      round2, roundHalfEven]
  have htraj : compute_trajectory_score
      [(⟨"1", 2023, "TAXA", "CA", 0, 0, 0, 10, 1⟩ : PMRow),
       ⟨"2", 2020, "TAXB", "CA", 0, 0, 0, 10, 1⟩] = [] := rfl
  have hconc : compute_program_concentration exPayments = [("1", (100 : ℝ))] := by
    simp only [compute_program_concentration, exPayments]
    simp [firstKeys, firstKeysAux, concScore, maxShare, progsOf, progTotal,
      grandTotal, listMax]
    norm_num [max_def, min_def, round2, roundHalfEven]
  simp only [exSingleRun, process_npi_batch]
  rw [show exPayments.filter (fun p => (["1", "2"] : List String).contains p.npi)
      = exPayments from rfl,
    show exProviders.filter (fun p => (["1", "2"] : List String).contains p.npi)
      = exProviders from rfl,
    show exExclusions.filter (fun e => (["1", "2"] : List String).contains e.npi)
      = ([] : List ExclusionRow) from rfl]
  rw [show exPayments.isEmpty = false from rfl]
  simp only [Bool.false_eq_true, if_false]
  rw [hpm, hbill, htraj, hconc]
  rw [show neo4jResults ["1", "2"] (Except.error ()) =
      [⟨"1", 0, 0, false⟩, ⟨"2", 0, 0, false⟩] from rfl]
  rw [show (compute_exclusion_proximity [] exProviders
      (chainCountsOf [⟨"1", 0, 0, false⟩, ⟨"2", 0, 0, false⟩])
      (ownerExcludedSetOf [⟨"1", 0, 0, false⟩, ⟨"2", 0, 0, false⟩]) :
      List (String × ℝ)) = [("1", 0), ("2", 0)] from rfl]
  simp only [assembleScores]
  simp [List.lookup]
  norm_num

/-- First batch of the split run: provider "1" alone, `r_raw = 25`. -/
theorem exBatchOne_eval :
    process_npi_batch ["1"] exPayments exProviders exExclusions
      (Except.error ()) = [⟨"1", 25, "Pending", 25, 50, 0, 0, 0, 100, 0⟩] := by
  have hpm : compute_peer_metrics
      [(⟨"1", 2023, "MC", 10, 1, 1, "TAXA", "CA"⟩ : PaymentRow ℝ)] =
      [⟨"1", 2023, "TAXA", "CA", 0, 0, 0, 10, 1⟩] := by
    simp only [compute_peer_metrics, aggregateNpiYear, filterP,
      primaryStats, fallbackStats, chosenStats, mkStats, PEER_MIN_CLAIMS, EPSILON]
    norm_num [firstKeys, firstKeysAux, List.lookup]
    exact rfl
  have hbill : compute_billing_score
      [(⟨"1", 2023, "TAXA", "CA", 0, 0, 0, 10, 1⟩ : PMRow)] =
      [("1", (50 : ℝ))] := by
    simp only [compute_billing_score, listMax, ALPHA]
    simp [firstKeys, firstKeysAux]
    norm_num [show ((2023 - 2023 : ℤ)).toNat = 0 from rfl, max_def,
      Real.exp_zero, round2, roundHalfEven]
  have htraj : compute_trajectory_score
      [(⟨"1", 2023, "TAXA", "CA", 0, 0, 0, 10, 1⟩ : PMRow)] = [] := rfl
  have hconc : compute_program_concentration
      [(⟨"1", 2023, "MC", 10, 1, 1, "TAXA", "CA"⟩ : PaymentRow ℝ)] =
      [("1", (100 : ℝ))] := by
    simp only [compute_program_concentration]
    simp [firstKeys, firstKeysAux, concScore, maxShare, progsOf, progTotal,
      grandTotal, listMax]
    norm_num [max_def, min_def, round2, roundHalfEven]
  simp only [process_npi_batch]
  rw [show exPayments.filter (fun p => (["1"] : List String).contains p.npi)
      = [(⟨"1", 2023, "MC", 10, 1, 1, "TAXA", "CA"⟩ : PaymentRow ℝ)] from rfl,
    show exProviders.filter (fun p => (["1"] : List String).contains p.npi)
      = [⟨"1", "TAXA", "CA", false, "Alpha Facility"⟩] from rfl,
    show exExclusions.filter (fun e => (["1"] : List String).contains e.npi)
      = ([] : List ExclusionRow) from rfl]
  rw [show ([(⟨"1", 2023, "MC", 10, 1, 1, "TAXA", "CA"⟩ : PaymentRow ℝ)]).isEmpty
      = false from rfl]
  simp only [Bool.false_eq_true, if_false]
  rw [hpm, hbill, htraj, hconc]
  rw [show neo4jResults ["1"] (Except.error ()) = [⟨"1", 0, 0, false⟩] from rfl]
  rw [show (compute_exclusion_proximity []
      [⟨"1", "TAXA", "CA", false, "Alpha Facility"⟩]
      (chainCountsOf [⟨"1", 0, 0, false⟩])
      (ownerExcludedSetOf [⟨"1", 0, 0, false⟩]) :
      List (String × ℝ)) = [("1", 0)] from rfl]
  simp only [assembleScores]
  simp [List.lookup]
  norm_num

/-- Second batch of the split run: provider "2" alone now scores
concentration 100 (the batch's most recent year is its own 2020), so
`r_raw = 25`, not the 15 it gets in the single-batch run. -/
theorem exBatchTwo_eval :
    process_npi_batch ["2"] exPayments exProviders exExclusions
      (Except.error ()) = [⟨"2", 25, "Pending", 25, 50, 0, 0, 0, 100, 0⟩] := by
  have hpm : compute_peer_metrics
      [(⟨"2", 2020, "MC", 10, 1, 1, "TAXB", "CA"⟩ : PaymentRow ℝ)] =
      [⟨"2", 2020, "TAXB", "CA", 0, 0, 0, 10, 1⟩] := by
    simp only [compute_peer_metrics, aggregateNpiYear, filterP,
      primaryStats, fallbackStats, chosenStats, mkStats, PEER_MIN_CLAIMS, EPSILON]
    norm_num [firstKeys, firstKeysAux, List.lookup]
    exact rfl
  have hbill : compute_billing_score
      [(⟨"2", 2020, "TAXB", "CA", 0, 0, 0, 10, 1⟩ : PMRow)] =
      [("2", (50 : ℝ))] := by
    simp only [compute_billing_score, listMax, ALPHA]
    simp [firstKeys, firstKeysAux]
    norm_num [show ((2020 - 2020 : ℤ)).toNat = 0 from rfl, max_def,
      Real.exp_zero, round2, roundHalfEven]
  have htraj : compute_trajectory_score
      [(⟨"2", 2020, "TAXB", "CA", 0, 0, 0, 10, 1⟩ : PMRow)] = [] := rfl
  have hconc : compute_program_concentration
      [(⟨"2", 2020, "MC", 10, 1, 1, "TAXB", "CA"⟩ : PaymentRow ℝ)] =
      [("2", (100 : ℝ))] := by
    simp only [compute_program_concentration]
    simp [firstKeys, firstKeysAux, concScore, maxShare, progsOf, progTotal,
      grandTotal, listMax]
    norm_num [max_def, min_def, round2, roundHalfEven]
  simp only [process_npi_batch]
  rw [show exPayments.filter (fun p => (["2"] : List String).contains p.npi)
      = [(⟨"2", 2020, "MC", 10, 1, 1, "TAXB", "CA"⟩ : PaymentRow ℝ)] from rfl,
    show exProviders.filter (fun p => (["2"] : List String).contains p.npi)
      = [⟨"2", "TAXB", "CA", false, "Beta Facility"⟩] from rfl,
    show exExclusions.filter (fun e => (["2"] : List String).contains e.npi)
      = ([] : List ExclusionRow) from rfl]
  rw [show ([(⟨"2", 2020, "MC", 10, 1, 1, "TAXB", "CA"⟩ : PaymentRow ℝ)]).isEmpty
      = false from rfl]
  simp only [Bool.false_eq_true, if_false]
  rw [hpm, hbill, htraj, hconc]
  rw [show neo4jResults ["2"] (Except.error ()) = [⟨"2", 0, 0, false⟩] from rfl]
  rw [show (compute_exclusion_proximity []
      [⟨"2", "TAXB", "CA", false, "Beta Facility"⟩]
      (chainCountsOf [⟨"2", 0, 0, false⟩])
      (ownerExcludedSetOf [⟨"2", 0, 0, false⟩]) :
      List (String × ℝ)) = [("2", 0)] from rfl]
  simp only [assembleScores]
  simp [List.lookup]
  norm_num

/-- Merging the split run: the two equal `r_raw = 25` values calibrate to
0 and 100 by argsort position. -/
theorem exMergeSplit_eval : merge_results
    [[⟨"1", 25, "Pending", 25, 50, 0, 0, 0, 100, 0⟩],
     [⟨"2", 25, "Pending", 25, 50, 0, 0, 0, 100, 0⟩]] =
    some [⟨"1", 0, "Low", 25, 50, 0, 0, 0, 100, 0⟩,
          ⟨"2", 100, "High", 25, 50, 0, 0, 0, 100, 0⟩] := by
  simp only [merge_results]
  norm_num
  rw [calibrate_pair_of_eq (25 : ℝ)]
  simp [List.insertionSort, List.orderedInsert]
  norm_num [risk_label, LABEL_THRESHOLDS, labelScan]
  decide

/-- Merging the single-batch run: `r_raw` values 25 and 15 calibrate to
100 and 0. -/
theorem exMergeSingle_eval : merge_results
    [[⟨"1", 25, "Pending", 25, 50, 0, 0, 0, 100, 0⟩,
      ⟨"2", 15, "Pending", 15, 50, 0, 0, 0, 0, 0⟩]] =
    some [⟨"1", 100, "High", 25, 50, 0, 0, 0, 100, 0⟩,
          ⟨"2", 0, "Low", 15, 50, 0, 0, 0, 0, 0⟩] := by
  simp only [merge_results]
  norm_num
  rw [calibrate_pair_of_lt (show (15 : ℝ) < 25 by norm_num)]
  simp [List.insertionSort, List.orderedInsert]
  norm_num [risk_label, LABEL_THRESHOLDS, labelScan]
  decide

/-- C1: counterexample to batch/merge equivalence. For the two-provider
example population, provider "2"'s merged `r_raw` is 25 when each provider
runs in its own batch but 15 when both run in one batch: the concentration
window (and likewise the peer statistics and the decay reference year) is
computed per batch, so `r_raw` is not partition-invariant. -/
theorem C1_counterexample_batch_r_raw :
    rRawOf ((merge_results exSplitRun).getD []) "2" = some 25 ∧
    rRawOf ((merge_results [exSingleRun]).getD []) "2" = some 15 := by
  have hs : exSplitRun =
      [[⟨"1", 25, "Pending", 25, 50, 0, 0, 0, 100, 0⟩],
       [⟨"2", 25, "Pending", 25, 50, 0, 0, 0, 100, 0⟩]] := by
    simp only [exSplitRun]
    rw [exBatchOne_eval, exBatchTwo_eval]
  constructor
  · rw [hs, exMergeSplit_eval]
    simp [rRawOf, List.find?]
  · rw [exSingleRun_eval, exMergeSingle_eval]
    simp [rRawOf, List.find?]
